import Mathlib

/-!
# IPMI frame codec and network-function router

A shallow embedding of `protocol/ipmi.go`; the managed target of `model/instance.go`
follows it, and the theorems come after both.

* Machine integers are natural numbers; every place where the Go code narrows or
  wraps (`uint8(...)`, `uint32` additions, `uint8` subtraction) carries an explicit
  reduction modulo `2 ^ 8` or `2 ^ 32`.
* A `bytes.Buffer` that is written to is the list of bytes written so far; a write
  appends.
* An `io.Reader` over an in-memory datagram is the list of bytes not yet read.
  `binary.Read` goes through `io.ReadFull`: when enough bytes remain they are taken
  from the front and stored in the target; otherwise the reader is drained, an error
  is returned and the target keeps its old value.  `DeserializeIPMI` discards every
  such error.
* `log.Println` calls inside the decoder are not modelled; the `switch` of the router
  records which `case` ran.
-/

namespace Protocol

/-! ## Constants -/

/-- Network function CHASSIS. -/
def IPMI_NETFN_CHASSIS : Nat := 0x00
/-- Network function BRIDGE. -/
def IPMI_NETFN_BRIDGE : Nat := 0x02
/-- Network function SENSOR / EVENT. -/
def IPMI_NETFN_SENSOR_EVENT : Nat := 0x04
/-- Network function APP. -/
def IPMI_NETFN_APP : Nat := 0x06
/-- Network function FIRMWARE. -/
def IPMI_NETFN_FIRMWARE : Nat := 0x08
/-- Network function STORAGE. -/
def IPMI_NETFN_STORAGE : Nat := 0x0a
/-- Network function TRANSPORT. -/
def IPMI_NETFN_TRANSPORT : Nat := 0x0c
/-- Network function GROUP EXTENSION. -/
def IPMI_NETFN_GROUP_EXTENSION : Nat := 0x2c
/-- Network function OEM GROUP. -/
def IPMI_NETFN_OEM_GROUP : Nat := 0x2e
/-- Response bit of the network function. -/
def IPMI_NETFN_RESPONSE : Nat := 0x01

/-- Encoded size of `IPMISessionWrapper`. -/
def LEN_IPMISESSIONWRAPPER : Nat := 10
/-- Encoded size of the six fixed header fields of `IPMIMessage`. -/
def LEN_IPMIMESSAGE_HEADER : Nat := 6

/-! ## Data model -/

/-- The IPMI session wrapper (`uint8`, `uint32`, `uint32`, `uint8`). -/
structure IPMISessionWrapper where
  AuthenticationType : Nat
  SequenceNumber : Nat
  SessionId : Nat
  MessageLen : Nat
deriving DecidableEq, Repr

/-- The IPMI message; every scalar field is a `uint8`, `Data` is a `[]uint8`. -/
structure IPMIMessage where
  TargetAddress : Nat
  TargetLun : Nat
  Checksum : Nat
  SourceAddress : Nat
  SourceLun : Nat
  Command : Nat
  CompletionCode : Nat
  Data : List Nat
  DataChecksum : Nat
deriving DecidableEq, Repr

/-- The zero value of `IPMISessionWrapper` (a fresh Go variable). -/
def IPMISessionWrapper.zero : IPMISessionWrapper :=
  { AuthenticationType := 0, SequenceNumber := 0, SessionId := 0, MessageLen := 0 }

/-- The zero value of `IPMIMessage`; the nil slice is the empty list. -/
def IPMIMessage.zero : IPMIMessage :=
  { TargetAddress := 0, TargetLun := 0, Checksum := 0, SourceAddress := 0, SourceLun := 0,
    Command := 0, CompletionCode := 0, Data := [], DataChecksum := 0 }

/-! ## Machine arithmetic -/

/-- Conversion `uint8(x)`. -/
def toUint8 (x : Nat) : Nat := x % 2 ^ 8

/-- Conversion `uint32(x)`. -/
def toUint32 (x : Nat) : Nat := x % 2 ^ 32

/-- Addition of two `uint32` values. -/
def add32 (a b : Nat) : Nat := (a + b) % 2 ^ 32

/-- Subtraction of two `uint8` values, wrapping below zero. -/
def sub8 (a b : Nat) : Nat := (a + 2 ^ 8 - b % 2 ^ 8) % 2 ^ 8

/-- The result of `unsafe.Sizeof` on a `uint8` field. -/
def sizeofUint8 : Nat := 1

/-! ## `encoding/binary`, big endian -/

/-- The four bytes `binary.BigEndian.PutUint32` stores. -/
def putUint32 (v : Nat) : List Nat :=
  [toUint8 (v >>> 24), toUint8 (v >>> 16), toUint8 (v >>> 8), toUint8 v]

/-- The value `binary.BigEndian.Uint32` reads from four bytes. -/
def uint32OfBytes (b0 b1 b2 b3 : Nat) : Nat :=
  b3 ||| (b2 <<< 8) ||| (b1 <<< 16) ||| (b0 <<< 24)

/-- The call `binary.Write(buf, binary.BigEndian, x)` for a `uint8`. -/
def writeUint8 (buf : List Nat) (x : Nat) : List Nat := buf ++ [x]

/-- The call `binary.Write(buf, binary.BigEndian, wrapper)`: fields in declaration order. -/
def writeWrapper (buf : List Nat) (w : IPMISessionWrapper) : List Nat :=
  buf ++ [w.AuthenticationType] ++ putUint32 w.SequenceNumber ++ putUint32 w.SessionId
    ++ [w.MessageLen]

/-- The call `buf.Write(p)`. -/
def writeBytes (buf : List Nat) (p : List Nat) : List Nat := buf ++ p

/-- The call `binary.Read(buf, binary.BigEndian, &x)` for a `uint8` target holding `old`:
the new value of the target and the reader afterwards. -/
def readUint8 (buf : List Nat) (old : Nat) : Nat × List Nat :=
  match buf with
  | b :: rest => (b, rest)
  | [] => (old, [])

/-- The call `binary.Read(buf, binary.BigEndian, &wrapper)`: ten bytes, or a short read
that drains the reader and leaves the target as it was. -/
def readWrapper (buf : List Nat) (old : IPMISessionWrapper) : IPMISessionWrapper × List Nat :=
  match buf with
  | a :: s0 :: s1 :: s2 :: s3 :: i0 :: i1 :: i2 :: i3 :: l :: rest =>
    ({ AuthenticationType := a, SequenceNumber := uint32OfBytes s0 s1 s2 s3,
       SessionId := uint32OfBytes i0 i1 i2 i3, MessageLen := l }, rest)
  | _ => (old, [])

/-- The call `binary.Read(buf, binary.BigEndian, &data)` for a slice target: as many
bytes as the slice is long, or a short read that leaves the slice as it was. -/
def readSlice (buf : List Nat) (old : List Nat) : List Nat × List Nat :=
  if old.length ≤ buf.length then (buf.take old.length, buf.drop old.length) else (old, [])

/-! ## The frame codec -/

/-- What `DeserializeIPMI` returns, together with the reader after the call. -/
structure Decoded where
  length : Nat
  wrapper : IPMISessionWrapper
  message : IPMIMessage
  rest : List Nat
deriving DecidableEq, Repr

/-- The payload length `wrapper.MessageLen - uint8(LEN_IPMIMESSAGE_HEADER) - 1`, computed
in `uint8`. -/
def dataLenOf (messageLen : Nat) : Nat :=
  sub8 (sub8 messageLen (toUint8 LEN_IPMIMESSAGE_HEADER)) 1

/-- The function `DeserializeIPMI`.  Each read yields the new value of its target (first
component) and the reader afterwards (second component). -/
def DeserializeIPMI (buf : List Nat) : Decoded :=
  let length := 0
  let message := IPMIMessage.zero
  let r0 := readWrapper buf IPMISessionWrapper.zero
  let wrapper := r0.1
  let length := add32 length LEN_IPMISESSIONWRAPPER
  let r1 := readUint8 r0.2 message.TargetAddress
  let r2 := readUint8 r1.2 message.TargetLun
  let r3 := readUint8 r2.2 message.Checksum
  let r4 := readUint8 r3.2 message.SourceAddress
  let r5 := readUint8 r4.2 message.SourceLun
  let r6 := readUint8 r5.2 message.Command
  let length := add32 length LEN_IPMIMESSAGE_HEADER
  let dataLen := dataLenOf wrapper.MessageLen
  let r7 := if dataLen > 0 then readSlice r6.2 (List.replicate dataLen 0) else (message.Data, r6.2)
  let r8 := readUint8 r7.2 message.DataChecksum
  { length := length
    wrapper := wrapper
    message :=
      { TargetAddress := r1.1, TargetLun := r2.1, Checksum := r3.1, SourceAddress := r4.1,
        SourceLun := r5.1, Command := r6.1, CompletionCode := message.CompletionCode,
        Data := r7.1, DataChecksum := r8.1 }
    rest := r8.2 }

/-- The trailing checksum `SerializeIPMI` computes: source address, source LUN, command
and every data byte are summed in a `uint32`. -/
def dataChecksumOf (message : IPMIMessage) : Nat :=
  let sum := toUint32 0
  let sum := add32 sum (toUint32 message.SourceAddress)
  let sum := add32 sum (toUint32 message.SourceLun)
  let sum := add32 sum (toUint32 message.Command)
  let sum := message.Data.foldl (fun s d => add32 s (toUint32 d)) sum
  toUint8 (0x100 - (sum &&& 0xff))

/-- The header checksum `SerializeIPMI` computes. -/
def headerChecksumOf (message : IPMIMessage) : Nat :=
  let sum := add32 (toUint32 message.TargetAddress) (toUint32 message.TargetLun)
  toUint8 (0x100 - (sum &&& 0xff))

/-- The message length `SerializeIPMI` computes. -/
def messageLenOf (message : IPMIMessage) : Nat :=
  let length := toUint32 0
  let length := add32 length (toUint32 sizeofUint8)
  let length := add32 length (toUint32 sizeofUint8)
  let length := add32 length (toUint32 sizeofUint8)
  let length := add32 length (toUint32 sizeofUint8)
  let length := add32 length (toUint32 sizeofUint8)
  let length := add32 length (toUint32 sizeofUint8)
  let length := add32 length (toUint32 sizeofUint8)
  let length := add32 length (toUint32 message.Data.length)
  let length := add32 length (toUint32 sizeofUint8)
  toUint8 length

/-- The function `SerializeIPMI`: the buffer after the call. -/
def SerializeIPMI (buf : List Nat) (wrapper : IPMISessionWrapper) (message : IPMIMessage) :
    List Nat :=
  let message := { message with DataChecksum := dataChecksumOf message }
  let message := { message with Checksum := headerChecksumOf message }
  let wrapper := { wrapper with MessageLen := messageLenOf message }
  let buf := writeWrapper buf wrapper
  let buf := writeUint8 buf message.TargetAddress
  let buf := writeUint8 buf message.TargetLun
  let buf := writeUint8 buf message.Checksum
  let buf := writeUint8 buf message.SourceAddress
  let buf := writeUint8 buf message.SourceLun
  let buf := writeUint8 buf message.Command
  let buf := writeUint8 buf message.CompletionCode
  let buf := writeBytes buf message.Data
  let buf := writeUint8 buf message.DataChecksum
  buf

/-! ## The network-function router -/

/-- The `case` of the `switch` in `IPMIDeserializeAndExecute` that ran (each prints its
own log line). -/
inductive Branch where
  | chassis
  | bridge
  | sensorEvent
  | app
  | firmware
  | storage
  | transport
  | groupExtension
  | oemGroup
deriving DecidableEq, Repr

/-- The expression `(message.TargetLun & 0xFC) >> 2`. -/
def netFunctionOf (message : IPMIMessage) : Nat := (message.TargetLun &&& 0xFC) >>> 2

/-- The `switch netFunction` statement: the first `case` whose constant matches. -/
def switchBranch (netFunction : Nat) : Option Branch :=
  if netFunction = IPMI_NETFN_CHASSIS then some Branch.chassis
  else if netFunction = IPMI_NETFN_BRIDGE then some Branch.bridge
  else if netFunction = IPMI_NETFN_SENSOR_EVENT then some Branch.sensorEvent
  else if netFunction = IPMI_NETFN_APP then some Branch.app
  else if netFunction = IPMI_NETFN_FIRMWARE then some Branch.firmware
  else if netFunction = IPMI_NETFN_STORAGE then some Branch.storage
  else if netFunction = IPMI_NETFN_TRANSPORT then some Branch.transport
  else if netFunction = IPMI_NETFN_GROUP_EXTENSION then some Branch.groupExtension
  else if netFunction = IPMI_NETFN_OEM_GROUP then some Branch.oemGroup
  else none

/-- One call `IPMI_APP_DeserializeAndExecute(addr, server, wrapper, message)`. -/
structure AppCall (A S : Type) where
  addr : A
  server : S
  wrapper : IPMISessionWrapper
  message : IPMIMessage
deriving DecidableEq, Repr

/-- What one run of `IPMIDeserializeAndExecute` did: the `case` that ran, if any, and the
handler calls it made, in order. -/
structure Execution (A S : Type) where
  branch : Option Branch
  calls : List (AppCall A S)
deriving DecidableEq, Repr

/-- The function `IPMIDeserializeAndExecute`. -/
def IPMIDeserializeAndExecute {A S : Type} (buf : List Nat) (addr : A) (server : S) :
    Execution A S :=
  let decoded := DeserializeIPMI buf
  let wrapper := decoded.wrapper
  let message := decoded.message
  let netFunction := netFunctionOf message
  let branch := switchBranch netFunction
  match branch with
  | some Branch.app =>
    { branch := branch
      calls := [{ addr := addr, server := server, wrapper := wrapper, message := message }] }
  | _ => { branch := branch, calls := [] }

/-! ## Concrete inputs -/

/-- A session wrapper whose `MessageLen` is stale. -/
def sampleWrapper : IPMISessionWrapper :=
  { AuthenticationType := 0, SequenceNumber := 0x01020304, SessionId := 0xA0B0C0D0,
    MessageLen := 99 }

/-- A message with three data bytes, a completion code and stale checksums. -/
def sampleMessage : IPMIMessage :=
  { TargetAddress := 0x20, TargetLun := 0x18, Checksum := 7, SourceAddress := 0x81,
    SourceLun := 0x04, Command := 0x38, CompletionCode := 0xAA, Data := [1, 2, 3],
    DataChecksum := 9 }

/-- The sample wrapper with another stale `MessageLen`. -/
def sampleWrapperStale : IPMISessionWrapper := { sampleWrapper with MessageLen := 0 }

/-- The sample message with other stale checksums. -/
def sampleMessageStale : IPMIMessage :=
  { sampleMessage with Checksum := 0xFF, DataChecksum := 0x55 }

/-- A message that carries 248 data bytes. -/
def longMessage : IPMIMessage := { sampleMessage with Data := List.replicate 248 0 }

/-- A complete request frame: the wrapper declares 9 message bytes, which are the six
header bytes, two data bytes and the trailing checksum (19 bytes in all). -/
def requestFrame : List Nat :=
  [0x00, 0x00, 0x00, 0x00, 0x01, 0x00, 0x00, 0x00, 0x02, 9,
   0x20, 0x18, 0xC8, 0x81, 0x04, 0x38, 0x8E, 0x04, 0xB1]

/-- A truncated request frame: the wrapper declares 12 message bytes and only 9 follow. -/
def truncatedFrame : List Nat :=
  [0x00, 0x00, 0x00, 0x00, 0x01, 0x00, 0x00, 0x00, 0x02, 12,
   0x20, 0x18, 0xC8, 0x81, 0x04, 0x38, 0x8E, 0x04, 0xB1]

/-- A frame without data whose wrapper declares 6 message bytes (the six header bytes),
followed by the trailing checksum byte. -/
def shortLengthFrame : List Nat :=
  [0x00, 0x00, 0x00, 0x00, 0x01, 0x00, 0x00, 0x00, 0x02, 6,
   0x20, 0x18, 0xC8, 0x81, 0x04, 0x38, 0x43]

/-- A request frame whose target-LUN byte carries network function CHASSIS (0) with LUN 0:
chassis control, power up. -/
def chassisFrame : List Nat :=
  [0x00, 0x00, 0x00, 0x00, 0x01, 0x00, 0x00, 0x00, 0x02, 8,
   0x20, 0x00, 0xE0, 0x81, 0x04, 0x02, 0x01, 0x78]

/-- A request frame whose target-LUN byte carries network function STORAGE (0x0a). -/
def storageFrame : List Nat :=
  [0x00, 0x00, 0x00, 0x00, 0x01, 0x00, 0x00, 0x00, 0x02, 7,
   0x20, 0x28, 0xB8, 0x81, 0x04, 0x20, 0x5B]

/-- A stream whose wrapper declares 6 message bytes and that holds 255 bytes after the six
header bytes, and one more byte after those. -/
def wrapFrame : List Nat :=
  [0x00, 0x00, 0x00, 0x00, 0x01, 0x00, 0x00, 0x00, 0x02, 6,
   0x20, 0x18, 0xC8, 0x81, 0x04, 0x38] ++ List.replicate 255 7 ++ [0x99]

end Protocol

/-!
# The managed target

A shallow embedding of `model/instance.go`.

* The receiver `*Instance` and the virtualization backend are passed in and handed back.
* The backend is seen through the one machine that `vbox.GetMachine` can find; it also
  keeps the list of the requests it was sent.  `Machine.Modify` stores the boot order of
  the machine value it is called on, `Machine.Stop` and `Machine.Start` switch the power
  state; the errors these three return are discarded by the callers and they are taken to
  succeed.
* `log.Fatalf` prints its message and ends the process with `os.Exit(1)`; the statement
  after it is never reached.
-/

namespace Model

/-- How a call ends: it returns to its caller, or the process ends with an exit status. -/
inductive Outcome (α : Type) where
  | returned (value : α)
  | exited (status : Nat)
deriving DecidableEq, Repr

/-- The call `log.Fatalf(...)`: the process ends with `os.Exit(1)`. -/
def logFatalf {α : Type} : Outcome α := Outcome.exited 1

/-- The power state `vbox` reports for a machine. -/
inductive MachineState where
  | Poweroff
  | Running
  | Paused
  | Saved
  | Aborted
deriving DecidableEq, Repr

/-- The fields of `vbox.Machine` that `instance.go` touches. -/
structure Machine where
  Name : String
  State : MachineState
  BootOrder : List String
deriving DecidableEq, Repr

/-- A request sent to the backend. -/
inductive BackendOp where
  | stop
  | start
  | modify (bootOrder : List String)
deriving DecidableEq, Repr

/-- The virtualization backend: the machine it knows, if any, and the requests it has
received, oldest first. -/
structure Backend where
  machine : Option Machine
  ops : List BackendOp
deriving DecidableEq, Repr

/-- The boot order the backend holds for its machine. -/
def Backend.bootOrder (backend : Backend) : Option (List String) :=
  backend.machine.map (fun m => m.BootOrder)

/-- The call `vbox.GetMachine(name)`; `none` stands for the error result. -/
def GetMachine (backend : Backend) (name : String) : Option Machine :=
  match backend.machine with
  | some m => if m.Name = name then some m else none
  | none => none

/-- The call `machine.Stop()`. -/
def Machine.Stop (_machine : Machine) (backend : Backend) : Backend :=
  { machine := backend.machine.map (fun stored => { stored with State := MachineState.Poweroff })
    ops := backend.ops ++ [BackendOp.stop] }

/-- The call `machine.Start()`. -/
def Machine.Start (_machine : Machine) (backend : Backend) : Backend :=
  { machine := backend.machine.map (fun stored => { stored with State := MachineState.Running })
    ops := backend.ops ++ [BackendOp.start] }

/-- The call `machine.Modify()`: the settings of the machine value are stored. -/
def Machine.Modify (machine : Machine) (backend : Backend) : Backend :=
  { machine := backend.machine.map (fun stored => { stored with BootOrder := machine.BootOrder })
    ops := backend.ops ++ [BackendOp.modify machine.BootOrder] }

/-- The type `Instance`. -/
structure Instance where
  Name : String
  lastBootOrder : List String
  nextBootOrder : List String
  needToRestoreBootOrder : Bool
  changeBootOrder : Bool
deriving DecidableEq, Repr

/-- The value `Instance{Name: name}` that `AddInstnace` stores: every other field is zero. -/
def newInstance (name : String) : Instance :=
  { Name := name, lastBootOrder := [], nextBootOrder := [], needToRestoreBootOrder := false,
    changeBootOrder := false }

/-- The method `IsRunning`. -/
def IsRunning (inst : Instance) (backend : Backend) : Bool :=
  match GetMachine backend inst.Name with
  | some machine => if machine.State = MachineState.Running then true else false
  | none => false

/-- The method `SetBootDevice`. -/
def SetBootDevice (inst : Instance) (backend : Backend) (dev : String) :
    Outcome (Instance × Backend) :=
  match GetMachine backend inst.Name with
  | none => logFatalf
  | some machine =>
    let newBootOrder :=
      machine.BootOrder.foldl (fun acc d => if d ≠ dev then acc ++ [d] else acc) [dev]
    Outcome.returned
      ({ inst with nextBootOrder := newBootOrder, changeBootOrder := true }, backend)

/-- The method `PowerOff`. -/
def PowerOff (inst : Instance) (backend : Backend) : Outcome (Instance × Backend) :=
  match GetMachine backend inst.Name with
  | none => logFatalf
  | some machine =>
    let backend := machine.Stop backend
    if inst.needToRestoreBootOrder then
      let machine := { machine with BootOrder := inst.lastBootOrder }
      let backend := machine.Modify backend
      Outcome.returned
        ({ inst with lastBootOrder := List.replicate 4 "", needToRestoreBootOrder := false },
          backend)
    else
      Outcome.returned (inst, backend)

/-- The method `PowerOn`. -/
def PowerOn (inst : Instance) (backend : Backend) : Outcome (Instance × Backend) :=
  match GetMachine backend inst.Name with
  | none => logFatalf
  | some machine =>
    if inst.changeBootOrder then
      let lastBootOrder := machine.BootOrder
      let machine := { machine with BootOrder := inst.nextBootOrder }
      let backend := machine.Modify backend
      let backend := machine.Start backend
      Outcome.returned
        ({ inst with lastBootOrder := lastBootOrder, nextBootOrder := List.replicate 4 "",
                     changeBootOrder := false, needToRestoreBootOrder := true }, backend)
    else
      Outcome.returned (inst, machine.Start backend)

/-- One call on an instance. -/
inductive Call where
  | setBootDevice (dev : String)
  | powerOn
  | powerOff
deriving DecidableEq, Repr

/-- Makes one call on the instance. -/
def Call.run (call : Call) (inst : Instance) (backend : Backend) :
    Outcome (Instance × Backend) :=
  match call with
  | Call.setBootDevice dev => SetBootDevice inst backend dev
  | Call.powerOn => PowerOn inst backend
  | Call.powerOff => PowerOff inst backend

/-- Makes the calls one after the other on the same instance; a call that ends the process
ends the run. -/
def runCalls : List Call → Instance → Backend → Outcome (Instance × Backend)
  | [], inst, backend => Outcome.returned (inst, backend)
  | call :: calls, inst, backend =>
    match call.run inst backend with
    | Outcome.returned (inst, backend) => runCalls calls inst backend
    | Outcome.exited status => Outcome.exited status

/-- Whether, in the run of the calls, `SetBootDevice` is only ever called while
`needToRestoreBootOrder` is false. -/
def stagesOnlyWhenRestored : List Call → Instance → Backend → Bool
  | [], _, _ => true
  | call :: calls, inst, backend =>
    (match call with
      | Call.setBootDevice _ => !inst.needToRestoreBootOrder
      | _ => true)
    && (match call.run inst backend with
      | Outcome.returned (inst, backend) => stagesOnlyWhenRestored calls inst backend
      | Outcome.exited _ => true)

/-- Whether, in the run of the calls, `PowerOn` is only ever called while
`changeBootOrder` is false, so that no call applies a staged override. -/
def powersOnOnlyUnstaged : List Call → Instance → Backend → Bool
  | [], _, _ => true
  | call :: calls, inst, backend =>
    (match call with
      | Call.powerOn => !inst.changeBootOrder
      | _ => true)
    && (match call.run inst backend with
      | Outcome.returned (inst, backend) => powersOnOnlyUnstaged calls inst backend
      | Outcome.exited _ => true)

/-! ## Concrete inputs -/

/-- A machine that boots from disk first. -/
def vm1 : Machine :=
  { Name := "vm1", State := MachineState.Poweroff, BootOrder := ["disk", "dvd", "net", "none"] }

/-- A backend that knows `vm1`. -/
def backendWithVm1 : Backend := { machine := some vm1, ops := [] }

/-- A backend that knows no machine. -/
def backendWithoutMachine : Backend := { machine := none, ops := [] }

/-- The instance for `vm1` after `SetBootDevice("net")` and `PowerOn()`: the override has
been applied and the restore is pending. -/
def poweredOnInstance : Instance :=
  { Name := "vm1", lastBootOrder := ["disk", "dvd", "net", "none"],
    nextBootOrder := ["", "", "", ""], needToRestoreBootOrder := true,
    changeBootOrder := false }

/-- The backend after the same two calls: `vm1` runs with the staged boot order. -/
def poweredOnBackend : Backend :=
  { machine := some { Name := "vm1", State := MachineState.Running,
                      BootOrder := ["net", "disk", "dvd", "none"] }
    ops := [BackendOp.modify ["net", "disk", "dvd", "none"], BackendOp.start] }

/-- The instance for `vm1` after `SetBootDevice("net")` and `PowerOff()`: the override is
staged and no restore is pending. -/
def stagedOffInstance : Instance :=
  { Name := "vm1", lastBootOrder := [], nextBootOrder := ["net", "disk", "dvd", "none"],
    needToRestoreBootOrder := false, changeBootOrder := true }

/-- The backend after the same two calls: `vm1` is off with its own boot order. -/
def stagedOffBackend : Backend :=
  { machine := some { Name := "vm1", State := MachineState.Poweroff,
                      BootOrder := ["disk", "dvd", "net", "none"] }
    ops := [BackendOp.stop] }

end Model

namespace Protocol

/-! ## Arithmetic of the codec -/

/-- Masking with `0xff` is the remainder modulo 256. -/
theorem and_255 (x : Nat) : x &&& 0xff = x % 256 := by
  have h := Nat.and_pow_two_sub_one_eq_mod x 8
  simpa using h

/-- The `uint32` running sum over the data agrees with the plain sum modulo 256. -/
theorem foldl_add32_mod (l : List Nat) (s : Nat) :
    (l.foldl (fun s d => add32 s (toUint32 d)) s) % 256 = (s + l.sum) % 256 := by
  induction l generalizing s with
  | nil => simp
  | cons d l ih =>
    simp only [List.foldl_cons, List.sum_cons]
    rw [ih]
    simp only [add32, toUint32]
    omega

/-- The message length `SerializeIPMI` computes, in closed form. -/
theorem messageLenOf_eq (m : IPMIMessage) : messageLenOf m = (8 + m.Data.length) % 256 := by
  simp only [messageLenOf, add32, toUint32, toUint8, sizeofUint8]
  omega

/-- The header checksum `SerializeIPMI` computes, in closed form. -/
theorem headerChecksumOf_eq (m : IPMIMessage) :
    headerChecksumOf m = (256 - (m.TargetAddress + m.TargetLun) % 256) % 256 := by
  simp only [headerChecksumOf, add32, toUint32, toUint8, and_255]
  omega

/-- The trailing checksum `SerializeIPMI` computes, in closed form. -/
theorem dataChecksumOf_eq (m : IPMIMessage) :
    dataChecksumOf m
      = (256 - (m.SourceAddress + m.SourceLun + m.Command + m.Data.sum) % 256) % 256 := by
  simp only [dataChecksumOf, and_255, foldl_add32_mod]
  simp only [add32, toUint32, toUint8]
  omega

/-- The payload length the decoder derives from a length byte, in closed form. -/
theorem dataLenOf_eq (l : Nat) (h : l < 256) : dataLenOf l = (l + 249) % 256 := by
  simp only [dataLenOf, sub8, toUint8, LEN_IPMIMESSAGE_HEADER]
  omega

/-- The buffer after `SerializeIPMI`, written out. -/
theorem SerializeIPMI_eq (buf : List Nat) (w : IPMISessionWrapper) (m : IPMIMessage) :
    SerializeIPMI buf w m
      = buf ++ (w.AuthenticationType :: (putUint32 w.SequenceNumber ++ (putUint32 w.SessionId
          ++ (messageLenOf m :: m.TargetAddress :: m.TargetLun :: headerChecksumOf m
            :: m.SourceAddress :: m.SourceLun :: m.Command :: m.CompletionCode
            :: (m.Data ++ [dataChecksumOf m]))))) := by
  simp [SerializeIPMI, writeWrapper, writeUint8, writeBytes, messageLenOf, headerChecksumOf,
    dataChecksumOf]

/-- The decoder on a stream that holds the wrapper and the six header bytes. -/
theorem DeserializeIPMI_header (a s0 s1 s2 s3 i0 i1 i2 i3 l ta tl ck sa sl cmd : Nat)
    (rest : List Nat) :
    DeserializeIPMI (a :: s0 :: s1 :: s2 :: s3 :: i0 :: i1 :: i2 :: i3 :: l :: ta :: tl :: ck
        :: sa :: sl :: cmd :: rest)
      = { length := 16
          wrapper := { AuthenticationType := a, SequenceNumber := uint32OfBytes s0 s1 s2 s3,
                       SessionId := uint32OfBytes i0 i1 i2 i3, MessageLen := l }
          message :=
            { TargetAddress := ta, TargetLun := tl, Checksum := ck, SourceAddress := sa,
              SourceLun := sl, Command := cmd, CompletionCode := 0,
              Data := (if dataLenOf l > 0 then readSlice rest (List.replicate (dataLenOf l) 0)
                        else ([], rest)).1
              DataChecksum := (readUint8 (if dataLenOf l > 0 then
                  readSlice rest (List.replicate (dataLenOf l) 0) else ([], rest)).2 0).1 }
          rest := (readUint8 (if dataLenOf l > 0 then
                  readSlice rest (List.replicate (dataLenOf l) 0) else ([], rest)).2 0).2 } := by
  have h16 : add32 (add32 0 LEN_IPMISESSIONWRAPPER) LEN_IPMIMESSAGE_HEADER = 16 := by decide
  simp only [DeserializeIPMI, readWrapper, readUint8, IPMIMessage.zero, h16]

/-! ## The claims -/

/-- The bytes of `putUint32` as quotients and remainders. -/
theorem putUint32_eq (v : Nat) :
    putUint32 v = [v / 2 ^ 24 % 256, v / 2 ^ 16 % 256, v / 2 ^ 8 % 256, v % 256] := by
  simp [putUint32, toUint8, Nat.shiftRight_eq_div_pow]

/-- A value below `2 ^ 32` is the sum of its four base-256 digits. -/
theorem bigEndian_digits (v : Nat) (h : v < 2 ^ 32) :
    v = v / 2 ^ 24 % 256 * 2 ^ 24 + v / 2 ^ 16 % 256 * 2 ^ 16 + v / 2 ^ 8 % 256 * 2 ^ 8
      + v % 256 := by
  norm_num at h ⊢
  omega

/-- C1 (counterexample): the sample message has three data bytes, yet decoding the frame
`SerializeIPMI` writes for it returns four data bytes, the completion code `0xAA` first; the
returned `Data` differs from the one that was encoded. -/
theorem C1_roundtrip_data_differs :
    sampleMessage.Data.length ≤ 255
      ∧ (DeserializeIPMI (SerializeIPMI [] sampleWrapper sampleMessage)).message.Data
          = [0xAA, 1, 2, 3]
      ∧ (DeserializeIPMI (SerializeIPMI [] sampleWrapper sampleMessage)).message.Data
          ≠ sampleMessage.Data := by
  decide

/-- C1 (amended): for every wrapper and every message whose `Data` has at most 255 bytes,
decoding the frame `SerializeIPMI` writes returns the same `TargetAddress`, `TargetLun`,
`SourceAddress`, `SourceLun` and `Command`; when `Data` has at most 254 bytes the returned
`Data` is the completion code followed by the bytes of the encoded `Data`. -/
theorem C1_roundtrip_amended (w : IPMISessionWrapper) (m : IPMIMessage)
    (h : m.Data.length ≤ 255) :
    (DeserializeIPMI (SerializeIPMI [] w m)).message.TargetAddress = m.TargetAddress
      ∧ (DeserializeIPMI (SerializeIPMI [] w m)).message.TargetLun = m.TargetLun
      ∧ (DeserializeIPMI (SerializeIPMI [] w m)).message.SourceAddress = m.SourceAddress
      ∧ (DeserializeIPMI (SerializeIPMI [] w m)).message.SourceLun = m.SourceLun
      ∧ (DeserializeIPMI (SerializeIPMI [] w m)).message.Command = m.Command
      ∧ (m.Data.length ≤ 254 →
          (DeserializeIPMI (SerializeIPMI [] w m)).message.Data = m.CompletionCode :: m.Data) := by
  rw [SerializeIPMI_eq]
  simp only [putUint32, List.nil_append, List.cons_append, DeserializeIPMI_header]
  simp only [true_and]
  intro h254
  have hlen : dataLenOf (messageLenOf m) = m.Data.length + 1 := by
    rw [messageLenOf_eq, dataLenOf_eq _ (Nat.mod_lt _ (by decide))]
    omega
  simp [hlen, readSlice]

/-- C1 (witness): the amended round trip at the sample wrapper and message. -/
theorem C1_roundtrip_amended_witness :
    sampleMessage.Data.length ≤ 255
      ∧ (DeserializeIPMI (SerializeIPMI [] sampleWrapper sampleMessage)).message.Command
          = sampleMessage.Command
      ∧ (DeserializeIPMI (SerializeIPMI [] sampleWrapper sampleMessage)).message.Data
          = sampleMessage.CompletionCode :: sampleMessage.Data :=
  ⟨by decide,
    (C1_roundtrip_amended sampleWrapper sampleMessage (by decide)).2.2.2.2.1,
    (C1_roundtrip_amended sampleWrapper sampleMessage (by decide)).2.2.2.2.2 (by decide)⟩

/-- C2: in the frame `SerializeIPMI` writes, the byte at offset 12 (header checksum) and
the last byte (trailing checksum) are the complement-to-256 checksums of the bytes they
cover: target address, target LUN and the header checksum sum to 0 modulo 256, and source
address, source LUN, command, all data bytes and the trailing checksum sum to 0 modulo 256.
Each checksum is `(0x100 - covered sum mod 256) mod 256`, hence 0 when the covered sum is a
multiple of 256. -/
theorem C2_checksum_correct (w : IPMISessionWrapper) (m : IPMIMessage) :
    ∃ c1 c2 : Nat,
      (SerializeIPMI [] w m)[12]? = some c1
        ∧ (SerializeIPMI [] w m).getLast? = some c2
        ∧ (m.TargetAddress + m.TargetLun + c1) % 256 = 0
        ∧ (m.SourceAddress + m.SourceLun + m.Command + m.Data.sum + c2) % 256 = 0
        ∧ c1 = (0x100 - (m.TargetAddress + m.TargetLun) % 256) % 256
        ∧ c2 = (0x100 - (m.SourceAddress + m.SourceLun + m.Command + m.Data.sum) % 256) % 256
        ∧ ((m.TargetAddress + m.TargetLun) % 256 = 0 → c1 = 0)
        ∧ ((m.SourceAddress + m.SourceLun + m.Command + m.Data.sum) % 256 = 0 → c2 = 0) := by
  refine ⟨headerChecksumOf m, dataChecksumOf m, ?_, ?_, ?_, ?_, ?_, ?_, ?_, ?_⟩
  · rw [SerializeIPMI_eq]
    simp [putUint32]
  · simp only [SerializeIPMI, writeUint8]
    exact List.getLast?_concat _
  · rw [headerChecksumOf_eq]
    omega
  · rw [dataChecksumOf_eq]
    omega
  · rw [headerChecksumOf_eq]
  · rw [dataChecksumOf_eq]
  · rw [headerChecksumOf_eq]
    omega
  · rw [dataChecksumOf_eq]
    omega

/-- C3 (counterexample): for a message with 248 data bytes the message-length byte at
offset 9 of the frame is 0, not `6 + 1 + 248 + 1 = 256`. -/
theorem C3_message_length_wraps :
    longMessage.Data.length = 248
      ∧ (SerializeIPMI [] sampleWrapper longMessage)[9]? = some 0
      ∧ (SerializeIPMI [] sampleWrapper longMessage)[9]?
          ≠ some (6 + 1 + longMessage.Data.length + 1) := by
  have hlen : longMessage.Data.length = 248 := by
    simp only [longMessage, List.length_replicate]
  have hbyte : (SerializeIPMI [] sampleWrapper longMessage)[9]? = some 0 := by
    rw [SerializeIPMI_eq]
    simp [putUint32, messageLenOf_eq, hlen]
  refine ⟨hlen, hbyte, ?_⟩
  rw [hbyte, hlen]
  decide

/-- C3 (amended): for every wrapper and every message whose `Data` has at most 247 bytes,
the message-length byte at offset 9 of the frame `SerializeIPMI` writes equals
`6 + 1 + len(Data) + 1`, where the middle 1 is the completion-code byte. -/
theorem C3_message_length_amended (w : IPMISessionWrapper) (m : IPMIMessage)
    (h : m.Data.length ≤ 247) :
    (SerializeIPMI [] w m)[9]? = some (6 + 1 + m.Data.length + 1) := by
  rw [SerializeIPMI_eq]
  simp only [putUint32, List.nil_append, List.cons_append]
  have hlen : messageLenOf m = 6 + 1 + m.Data.length + 1 := by
    rw [messageLenOf_eq]
    omega
  simp [hlen]

/-- C3 (witness): the amended message length at the sample message, three data bytes. -/
theorem C3_message_length_amended_witness :
    sampleMessage.Data.length ≤ 247
      ∧ (SerializeIPMI [] sampleWrapper sampleMessage)[9]? = some (6 + 1 + 3 + 1) :=
  ⟨by decide, C3_message_length_amended sampleWrapper sampleMessage (by decide)⟩

/-- C4: two inputs that agree on every field except `MessageLen`, `Checksum` and
`DataChecksum` make `SerializeIPMI` write exactly the same bytes. -/
theorem C4_stale_fields_ignored (buf : List Nat) (w1 w2 : IPMISessionWrapper)
    (m1 m2 : IPMIMessage)
    (hAuth : w1.AuthenticationType = w2.AuthenticationType)
    (hSeq : w1.SequenceNumber = w2.SequenceNumber)
    (hSid : w1.SessionId = w2.SessionId)
    (hTA : m1.TargetAddress = m2.TargetAddress)
    (hTL : m1.TargetLun = m2.TargetLun)
    (hSA : m1.SourceAddress = m2.SourceAddress)
    (hSL : m1.SourceLun = m2.SourceLun)
    (hCmd : m1.Command = m2.Command)
    (hCC : m1.CompletionCode = m2.CompletionCode)
    (hData : m1.Data = m2.Data) :
    SerializeIPMI buf w1 m1 = SerializeIPMI buf w2 m2 := by
  rw [SerializeIPMI_eq, SerializeIPMI_eq, messageLenOf_eq, messageLenOf_eq,
    headerChecksumOf_eq, headerChecksumOf_eq, dataChecksumOf_eq, dataChecksumOf_eq,
    hAuth, hSeq, hSid, hTA, hTL, hSA, hSL, hCmd, hCC, hData]

/-- C4 (witness): the sample input and a copy whose three derived fields hold other
stale values are written as the same bytes. -/
theorem C4_stale_fields_ignored_witness :
    sampleWrapper.MessageLen ≠ sampleWrapperStale.MessageLen
      ∧ sampleMessage.Checksum ≠ sampleMessageStale.Checksum
      ∧ sampleMessage.DataChecksum ≠ sampleMessageStale.DataChecksum
      ∧ SerializeIPMI [] sampleWrapper sampleMessage
          = SerializeIPMI [] sampleWrapperStale sampleMessageStale :=
  ⟨by decide, by decide, by decide,
    C4_stale_fields_ignored [] sampleWrapper sampleWrapperStale sampleMessage
      sampleMessageStale rfl rfl rfl rfl rfl rfl rfl rfl rfl rfl⟩

/-- C5: `SerializeIPMI` keeps the prior content of the buffer as a prefix and appends
exactly `18 + len(Data)` bytes, with nothing in between, in this order: the authentication
type, the four bytes of the sequence number (most significant first), the four bytes of the
session id (most significant first), the message length, target address, target LUN, header
checksum, source address, source LUN, command, completion code, the data bytes in order,
and the trailing checksum. -/
theorem C5_wire_layout (buf : List Nat) (w : IPMISessionWrapper) (m : IPMIMessage)
    (hSeq : w.SequenceNumber < 2 ^ 32) (hSid : w.SessionId < 2 ^ 32) :
    ∃ s0 s1 s2 s3 i0 i1 i2 i3 : Nat,
      (s0 < 256 ∧ s1 < 256 ∧ s2 < 256 ∧ s3 < 256)
        ∧ (i0 < 256 ∧ i1 < 256 ∧ i2 < 256 ∧ i3 < 256)
        ∧ w.SequenceNumber = s0 * 2 ^ 24 + s1 * 2 ^ 16 + s2 * 2 ^ 8 + s3
        ∧ w.SessionId = i0 * 2 ^ 24 + i1 * 2 ^ 16 + i2 * 2 ^ 8 + i3
        ∧ SerializeIPMI buf w m
            = buf ++ [w.AuthenticationType, s0, s1, s2, s3, i0, i1, i2, i3,
                (6 + 1 + m.Data.length + 1) % 256,
                m.TargetAddress, m.TargetLun,
                (0x100 - (m.TargetAddress + m.TargetLun) % 256) % 256,
                m.SourceAddress, m.SourceLun, m.Command, m.CompletionCode]
              ++ m.Data
              ++ [(0x100 - (m.SourceAddress + m.SourceLun + m.Command + m.Data.sum) % 256)
                    % 256]
        ∧ (SerializeIPMI buf w m).length = buf.length + (18 + m.Data.length) := by
  refine ⟨w.SequenceNumber / 2 ^ 24 % 256, w.SequenceNumber / 2 ^ 16 % 256,
    w.SequenceNumber / 2 ^ 8 % 256, w.SequenceNumber % 256,
    w.SessionId / 2 ^ 24 % 256, w.SessionId / 2 ^ 16 % 256,
    w.SessionId / 2 ^ 8 % 256, w.SessionId % 256, ?_, ?_, ?_, ?_, ?_, ?_⟩
  · refine ⟨?_, ?_, ?_, ?_⟩ <;> exact Nat.mod_lt _ (by decide)
  · refine ⟨?_, ?_, ?_, ?_⟩ <;> exact Nat.mod_lt _ (by decide)
  · exact bigEndian_digits _ hSeq
  · exact bigEndian_digits _ hSid
  · rw [SerializeIPMI_eq, putUint32_eq, putUint32_eq, messageLenOf_eq, headerChecksumOf_eq,
      dataChecksumOf_eq]
    have h8 : 8 + m.Data.length = 6 + 1 + m.Data.length + 1 := by omega
    simp [h8]
  · rw [SerializeIPMI_eq, putUint32_eq, putUint32_eq]
    simp
    omega

/-- C5 (witness): the wire layout at the sample wrapper and message, written after two
bytes already in the buffer. -/
theorem C5_wire_layout_witness :
    sampleWrapper.SequenceNumber < 2 ^ 32 ∧ sampleWrapper.SessionId < 2 ^ 32
      ∧ ∃ s0 s1 s2 s3 i0 i1 i2 i3 : Nat,
        (s0 < 256 ∧ s1 < 256 ∧ s2 < 256 ∧ s3 < 256)
          ∧ (i0 < 256 ∧ i1 < 256 ∧ i2 < 256 ∧ i3 < 256)
          ∧ sampleWrapper.SequenceNumber = s0 * 2 ^ 24 + s1 * 2 ^ 16 + s2 * 2 ^ 8 + s3
          ∧ sampleWrapper.SessionId = i0 * 2 ^ 24 + i1 * 2 ^ 16 + i2 * 2 ^ 8 + i3
          ∧ SerializeIPMI [6, 7] sampleWrapper sampleMessage
              = [6, 7] ++ [sampleWrapper.AuthenticationType, s0, s1, s2, s3, i0, i1, i2, i3,
                  (6 + 1 + sampleMessage.Data.length + 1) % 256,
                  sampleMessage.TargetAddress, sampleMessage.TargetLun,
                  (0x100 - (sampleMessage.TargetAddress + sampleMessage.TargetLun) % 256) % 256,
                  sampleMessage.SourceAddress, sampleMessage.SourceLun, sampleMessage.Command,
                  sampleMessage.CompletionCode]
                ++ sampleMessage.Data
                ++ [(0x100 - (sampleMessage.SourceAddress + sampleMessage.SourceLun
                      + sampleMessage.Command + sampleMessage.Data.sum) % 256) % 256]
          ∧ (SerializeIPMI [6, 7] sampleWrapper sampleMessage).length
              = [6, 7].length + (18 + sampleMessage.Data.length) :=
  ⟨by decide, by decide, C5_wire_layout [6, 7] sampleWrapper sampleMessage (by decide) (by decide)⟩

/-- On bytes, the shifts and ors of `uint32OfBytes` add up the base-256 digits. -/
theorem uint32OfBytes_eq (b0 b1 b2 b3 : Nat) (h1 : b1 < 256) (h2 : b2 < 256)
    (h3 : b3 < 256) :
    uint32OfBytes b0 b1 b2 b3 = b0 * 2 ^ 24 + b1 * 2 ^ 16 + b2 * 2 ^ 8 + b3 := by
  have l1 : b3 < 2 ^ 8 := by omega
  have l2 : 2 ^ 8 * b2 + b3 < 2 ^ 16 := by omega
  have l3 : 2 ^ 16 * b1 + (2 ^ 8 * b2 + b3) < 2 ^ 24 := by omega
  have e1 : b3 ||| b2 <<< 8 = 2 ^ 8 * b2 + b3 := by
    rw [Nat.shiftLeft_eq, Nat.lor_comm, Nat.mul_comm]
    exact (Nat.mul_add_lt_is_or l1 b2).symm
  have e2 : (2 ^ 8 * b2 + b3) ||| b1 <<< 16 = 2 ^ 16 * b1 + (2 ^ 8 * b2 + b3) := by
    rw [Nat.shiftLeft_eq, Nat.lor_comm, Nat.mul_comm]
    exact (Nat.mul_add_lt_is_or l2 b1).symm
  have e3 : (2 ^ 16 * b1 + (2 ^ 8 * b2 + b3)) ||| b0 <<< 24
      = 2 ^ 24 * b0 + (2 ^ 16 * b1 + (2 ^ 8 * b2 + b3)) := by
    rw [Nat.shiftLeft_eq, Nat.lor_comm, Nat.mul_comm]
    exact (Nat.mul_add_lt_is_or l3 b0).symm
  rw [uint32OfBytes, e1, e2, e3]
  omega

/-- Masking with `0xFC` and shifting right by two recovers the upper six bits. -/
theorem netFunction_bits : ∀ n < 64, ∀ l < 4, ((4 * n + l) &&& 0xFC) >>> 2 = n := by
  decide

/-- The switch sends network function APP to the APP case. -/
theorem switchBranch_app : switchBranch IPMI_NETFN_APP = some Branch.app := by
  decide

/-- C6 (evaluation): on the complete 19-byte request frame `DeserializeIPMI` consumes all
19 bytes, which is `10 + 6 + len(Data) + 1` for the two data bytes it returns, yet the
length it returns is 16. -/
theorem C6_returned_length_is_header_only :
    (DeserializeIPMI requestFrame).length = 16
      ∧ (DeserializeIPMI requestFrame).message.Data = [0x8E, 0x04]
      ∧ requestFrame.length - (DeserializeIPMI requestFrame).rest.length = 19
      ∧ 10 + 6 + (DeserializeIPMI requestFrame).message.Data.length + 1 = 19
      ∧ (DeserializeIPMI requestFrame).length
          ≠ requestFrame.length - (DeserializeIPMI requestFrame).rest.length := by
  decide

/-- C7 (counterexample): the truncated frame declares 12 message bytes while 9 remain
after the wrapper, yet `DeserializeIPMI` returns a wrapper and a message (five zero data
bytes, checksum 0) and `IPMIDeserializeAndExecute` calls the APP handler with them. -/
theorem C7_truncated_frame_is_dispatched :
    truncatedFrame.length - 10 < (DeserializeIPMI truncatedFrame).wrapper.MessageLen
      ∧ DeserializeIPMI truncatedFrame
          = { length := 16
              wrapper := { AuthenticationType := 0, SequenceNumber := 1, SessionId := 2,
                           MessageLen := 12 }
              message := { TargetAddress := 0x20, TargetLun := 0x18, Checksum := 0xC8,
                           SourceAddress := 0x81, SourceLun := 0x04, Command := 0x38,
                           CompletionCode := 0, Data := [0, 0, 0, 0, 0], DataChecksum := 0 }
              rest := [] }
      ∧ (IPMIDeserializeAndExecute truncatedFrame () ()).branch = some Branch.app
      ∧ (IPMIDeserializeAndExecute truncatedFrame () ()).calls
          = [{ addr := (), server := (),
               wrapper := (DeserializeIPMI truncatedFrame).wrapper,
               message := (DeserializeIPMI truncatedFrame).message }] := by
  decide

/-- A one-byte read from a drained reader leaves the target as it was. -/
theorem readUint8_nil (old : Nat) : readUint8 [] old = (old, []) := rfl

/-- A slice read from too few bytes drains the reader and keeps the slice. -/
theorem readSlice_short (buf old : List Nat) (h : buf.length < old.length) :
    readSlice buf old = (old, []) := by
  simp [readSlice, Nat.not_le.mpr h]

/-- A slice read that takes every remaining byte. -/
theorem readSlice_exact (buf old : List Nat) (h : buf.length = old.length) :
    readSlice buf old = (buf, []) := by
  simp [readSlice, h]

/-- A stream of at least ten bytes starts with the ten wrapper bytes. -/
theorem exists_wrapper_bytes (s : List Nat) (h : 10 ≤ s.length) :
    ∃ a s0 s1 s2 s3 i0 i1 i2 i3 l0 t,
      s = a :: s0 :: s1 :: s2 :: s3 :: i0 :: i1 :: i2 :: i3 :: l0 :: t := by
  rcases s with _ | ⟨a, s⟩
  · simp at h
  rcases s with _ | ⟨s0, s⟩
  · simp at h
  rcases s with _ | ⟨s1, s⟩
  · simp at h
  rcases s with _ | ⟨s2, s⟩
  · simp at h
  rcases s with _ | ⟨s3, s⟩
  · simp at h
  rcases s with _ | ⟨i0, s⟩
  · simp at h
  rcases s with _ | ⟨i1, s⟩
  · simp at h
  rcases s with _ | ⟨i2, s⟩
  · simp at h
  rcases s with _ | ⟨i3, s⟩
  · simp at h
  rcases s with _ | ⟨l0, s⟩
  · simp at h
  exact ⟨a, s0, s1, s2, s3, i0, i1, i2, i3, l0, s, rfl⟩

/-- When at most `dataLen` bytes remain after the header, the trailing checksum read falls short: it yields 0 and a drained reader, and `Data` has `dataLen` bytes. -/
theorem payload_truncated (l : Nat) (buf : List Nat) (h : buf.length ≤ dataLenOf l) :
    (readUint8 (if dataLenOf l > 0 then readSlice buf (List.replicate (dataLenOf l) 0)
        else ([], buf)).2 0) = (0, [])
      ∧ (if dataLenOf l > 0 then readSlice buf (List.replicate (dataLenOf l) 0)
          else ([], buf)).1.length = dataLenOf l := by
  by_cases hpos : dataLenOf l > 0
  · rw [if_pos hpos]
    rcases Nat.lt_or_eq_of_le h with hlt | heq
    · rw [readSlice_short _ _ (by simpa using hlt)]
      simp [readUint8]
    · rw [readSlice_exact _ _ (by simpa using heq)]
      simp [readUint8, heq]
  · rw [if_neg hpos]
    have h0 : dataLenOf l = 0 := by omega
    have hnil : buf = [] := List.length_eq_zero.mp (by omega)
    simp [hnil, h0, readUint8]

/-- A stream of at least six bytes starts with the six header bytes. -/
theorem exists_header_bytes (t : List Nat) (h : 6 ≤ t.length) :
    ∃ ta tl ck sa sl cmd rest, t = ta :: tl :: ck :: sa :: sl :: cmd :: rest := by
  rcases t with _ | ⟨ta, t⟩
  · simp at h
  rcases t with _ | ⟨tl, t⟩
  · simp at h
  rcases t with _ | ⟨ck, t⟩
  · simp at h
  rcases t with _ | ⟨sa, t⟩
  · simp at h
  rcases t with _ | ⟨sl, t⟩
  · simp at h
  rcases t with _ | ⟨cmd, t⟩
  · simp at h
  exact ⟨ta, tl, ck, sa, sl, cmd, t, rfl⟩

/-- The value a one-byte read stores. -/
theorem readUint8_fst (buf : List Nat) (old : Nat) : (readUint8 buf old).1 = buf.getD 0 old := by
  cases buf <;> rfl

/-- The reader after a one-byte read. -/
theorem readUint8_snd (buf : List Nat) (old : Nat) : (readUint8 buf old).2 = buf.drop 1 := by
  cases buf <;> rfl

/-- A slice read with enough bytes takes them from the front. -/
theorem readSlice_enough (buf : List Nat) (n : Nat) (h : n ≤ buf.length) :
    readSlice buf (List.replicate n 0) = (buf.take n, buf.drop n) := by
  simp [readSlice, h]

/-- C8 (evaluation): the 17-byte frame declares 6 message bytes, so `MessageLen - 6 - 1` is
negative; `DeserializeIPMI` nevertheless returns 255 data bytes, and the byte right after
the six header bytes (`0x43`) is not returned as the trailing checksum. -/
theorem C8_short_length_yields_data :
    (DeserializeIPMI shortLengthFrame).wrapper.MessageLen = 6
      ∧ (DeserializeIPMI shortLengthFrame).message.Data.length = 255
      ∧ (DeserializeIPMI shortLengthFrame).message.Data ≠ []
      ∧ shortLengthFrame[16]? = some 0x43
      ∧ (DeserializeIPMI shortLengthFrame).message.DataChecksum = 0 := by
  have h255 : dataLenOf 6 = 255 := by decide
  have hdec := DeserializeIPMI_header 0x00 0x00 0x00 0x00 0x01 0x00 0x00 0x00 0x02 6
    0x20 0x18 0xC8 0x81 0x04 0x38 [0x43]
  rw [h255, if_pos (by decide), readSlice_short _ _ (by
    simp only [List.length_replicate, List.length_singleton]
    decide)] at hdec
  have hframe : shortLengthFrame
      = [0x00, 0x00, 0x00, 0x00, 0x01, 0x00, 0x00, 0x00, 0x02, 6,
         0x20, 0x18, 0xC8, 0x81, 0x04, 0x38, 0x43] := rfl
  rw [hframe, hdec]
  refine ⟨rfl, ?_, ?_, rfl, rfl⟩
  · simp only [List.length_replicate]
  · intro hnil
    have hlen := congrArg List.length hnil
    simp only [List.length_replicate] at hlen
    exact absurd hlen (by decide)

/-- C9: for every stream of bytes that is at least `10 + MessageLen` long and whose byte 9
(`MessageLen`) is at least 8, `DeserializeIPMI` returns the authentication type from byte 0,
the sequence number from bytes 1..4 and the session id from bytes 5..8 (big endian),
`MessageLen` from byte 9, target address, target LUN, checksum, source address, source LUN
and command from bytes 10..15, the next `MessageLen - 7` bytes as `Data`, and the byte after
them as `DataChecksum`; both checksums are returned as read, and the reader is left at the
byte after the frame. -/
theorem C9_decode_layout (s : List Nat) (l : Nat) (hl : s[9]? = some l) (h8 : 8 ≤ l)
    (hlen : 10 + l ≤ s.length) (hbytes : ∀ b ∈ s, b < 256) :
    (DeserializeIPMI s).wrapper.AuthenticationType = s.getD 0 0
      ∧ (DeserializeIPMI s).wrapper.SequenceNumber
          = s.getD 1 0 * 2 ^ 24 + s.getD 2 0 * 2 ^ 16 + s.getD 3 0 * 2 ^ 8 + s.getD 4 0
      ∧ (DeserializeIPMI s).wrapper.SessionId
          = s.getD 5 0 * 2 ^ 24 + s.getD 6 0 * 2 ^ 16 + s.getD 7 0 * 2 ^ 8 + s.getD 8 0
      ∧ (DeserializeIPMI s).wrapper.MessageLen = l
      ∧ (DeserializeIPMI s).message.TargetAddress = s.getD 10 0
      ∧ (DeserializeIPMI s).message.TargetLun = s.getD 11 0
      ∧ (DeserializeIPMI s).message.Checksum = s.getD 12 0
      ∧ (DeserializeIPMI s).message.SourceAddress = s.getD 13 0
      ∧ (DeserializeIPMI s).message.SourceLun = s.getD 14 0
      ∧ (DeserializeIPMI s).message.Command = s.getD 15 0
      ∧ (DeserializeIPMI s).message.Data = (s.drop 16).take (l - 7)
      ∧ (DeserializeIPMI s).message.DataChecksum = s.getD (9 + l) 0
      ∧ (DeserializeIPMI s).rest = s.drop (10 + l) := by
  obtain ⟨a, s0, s1, s2, s3, i0, i1, i2, i3, l0, t, rfl⟩ :=
    exists_wrapper_bytes s (by omega)
  have hl0 : l0 = l := by simpa using hl
  subst hl0
  have ht : 6 ≤ t.length := by
    simp only [List.length_cons] at hlen
    omega
  obtain ⟨ta, tl, ck, sa, sl, cmd, rest, rfl⟩ := exists_header_bytes t ht
  have hrest : l0 - 7 < rest.length := by
    simp only [List.length_cons] at hlen
    omega
  have hl256 : l0 < 256 := hbytes l0 (by simp)
  have hdl : dataLenOf l0 = l0 - 7 := by
    rw [dataLenOf_eq _ hl256]
    omega
  have hseq := uint32OfBytes_eq s0 s1 s2 s3 (hbytes s1 (by simp)) (hbytes s2 (by simp))
    (hbytes s3 (by simp))
  have hsid := uint32OfBytes_eq i0 i1 i2 i3 (hbytes i1 (by simp)) (hbytes i2 (by simp))
    (hbytes i3 (by simp))
  obtain ⟨k, rfl⟩ : ∃ k, l0 = k + 8 := ⟨l0 - 8, by omega⟩
  have hk : k + 8 - 7 = k + 1 := by omega
  rw [hk] at hdl hrest
  rw [DeserializeIPMI_header, hdl, if_pos (by omega), readSlice_enough _ _ (by omega),
    readUint8_fst, readUint8_snd]
  refine ⟨rfl, hseq, hsid, rfl, rfl, rfl, rfl, rfl, rfl, rfl, ?_, ?_, ?_⟩
  · simp [hk]
  · have hidx : 9 + (k + 8) = k + 1 + 16 := by omega
    rw [hidx]
    simp [List.getD_eq_getElem?_getD, List.getElem?_drop]
  · have hidx : 10 + (k + 8) = k + 2 + 16 := by omega
    rw [hidx]
    simp [List.drop_drop]

/-- C9 (witness): the decode layout at the complete 19-byte request frame. -/
theorem C9_decode_layout_witness :
    requestFrame[9]? = some 9 ∧ 8 ≤ 9 ∧ 10 + 9 ≤ requestFrame.length
      ∧ (∀ b ∈ requestFrame, b < 256)
      ∧ (DeserializeIPMI requestFrame).wrapper.SequenceNumber
          = requestFrame.getD 1 0 * 2 ^ 24 + requestFrame.getD 2 0 * 2 ^ 16
            + requestFrame.getD 3 0 * 2 ^ 8 + requestFrame.getD 4 0
      ∧ (DeserializeIPMI requestFrame).message.Data = (requestFrame.drop 16).take (9 - 7)
      ∧ (DeserializeIPMI requestFrame).message.DataChecksum = requestFrame.getD (9 + 9) 0 :=
  ⟨by decide, by decide, by decide, by decide,
    (C9_decode_layout requestFrame 9 (by decide) (by decide) (by decide) (by decide)).2.1,
    (C9_decode_layout requestFrame 9 (by decide) (by decide) (by decide)
      (by decide)).2.2.2.2.2.2.2.2.2.2.1,
    (C9_decode_layout requestFrame 9 (by decide) (by decide) (by decide)
      (by decide)).2.2.2.2.2.2.2.2.2.2.2.1⟩

/-- The decoder returns byte 11 of the stream as `TargetLun`. -/
theorem targetLun_of_stream (pre post : List Nat) (x : Nat) (hpre : pre.length = 11) :
    (DeserializeIPMI (pre ++ x :: post)).message.TargetLun = x := by
  obtain ⟨a, s0, s1, s2, s3, i0, i1, i2, i3, l0, t, rfl⟩ :=
    exists_wrapper_bytes pre (by omega)
  rcases t with _ | ⟨ta, t⟩
  · simp at hpre
  rcases t with _ | ⟨y, t⟩
  · simp [DeserializeIPMI, readWrapper, readUint8]
  · simp at hpre

/-- The branch the router records is the one its switch selects. -/
theorem branch_eq_switch {A S : Type} (s : List Nat) (addr : A) (server : S) :
    (IPMIDeserializeAndExecute s addr server).branch
      = switchBranch (netFunctionOf (DeserializeIPMI s).message) := by
  simp only [IPMIDeserializeAndExecute]
  split <;> rfl

/-- C10: for every 6-bit network function code `n` and every 2-bit LUN, the expression
`(TargetLun & 0xFC) >> 2` applied to `TargetLun = 4 * n + lun` yields `n`; hence for two
request streams that differ only in the low two bits of the target-LUN byte (offset 11)
`IPMIDeserializeAndExecute` takes the same branch of its switch, the one of `n`. -/
theorem C10_netfn_extraction {A S : Type} (n l1 l2 : Nat) (pre post : List Nat) (addr : A)
    (server : S) (hn : n < 64) (hl1 : l1 < 4) (hl2 : l2 < 4) (hpre : pre.length = 11) :
    (∀ m : IPMIMessage, netFunctionOf { m with TargetLun := 4 * n + l1 } = n)
      ∧ netFunctionOf (DeserializeIPMI (pre ++ (4 * n + l1) :: post)).message = n
      ∧ (IPMIDeserializeAndExecute (pre ++ (4 * n + l1) :: post) addr server).branch
          = switchBranch n
      ∧ (IPMIDeserializeAndExecute (pre ++ (4 * n + l1) :: post) addr server).branch
          = (IPMIDeserializeAndExecute (pre ++ (4 * n + l2) :: post) addr server).branch := by
  have e1 : netFunctionOf (DeserializeIPMI (pre ++ (4 * n + l1) :: post)).message = n := by
    rw [netFunctionOf, targetLun_of_stream pre post _ hpre]
    exact netFunction_bits n hn l1 hl1
  have e2 : netFunctionOf (DeserializeIPMI (pre ++ (4 * n + l2) :: post)).message = n := by
    rw [netFunctionOf, targetLun_of_stream pre post _ hpre]
    exact netFunction_bits n hn l2 hl2
  refine ⟨fun m => netFunction_bits n hn l1 hl1, e1, ?_, ?_⟩
  · rw [branch_eq_switch, e1]
  · rw [branch_eq_switch, branch_eq_switch, e1, e2]

/-- C10 (witness): the request frame carries network function APP (6) with LUN 0; changing
the LUN bits to 3 leaves the router in the APP branch. -/
theorem C10_netfn_extraction_witness :
    (6 < 64 ∧ 0 < 4 ∧ 3 < 4 ∧ (requestFrame.take 11).length = 11)
      ∧ netFunctionOf
          (DeserializeIPMI (requestFrame.take 11 ++ (4 * 6 + 0) :: requestFrame.drop 12)).message
          = 6
      ∧ (IPMIDeserializeAndExecute (requestFrame.take 11 ++ (4 * 6 + 0) :: requestFrame.drop 12)
          () ()).branch = switchBranch 6
      ∧ (IPMIDeserializeAndExecute (requestFrame.take 11 ++ (4 * 6 + 0) :: requestFrame.drop 12)
          () ()).branch
          = (IPMIDeserializeAndExecute
              (requestFrame.take 11 ++ (4 * 6 + 3) :: requestFrame.drop 12) () ()).branch :=
  ⟨⟨by decide, by decide, by decide, by decide⟩,
    (C10_netfn_extraction 6 0 3 (requestFrame.take 11) (requestFrame.drop 12) () ()
      (by decide) (by decide) (by decide) (by decide)).2⟩


/-- The switch selects the APP case for network function APP only. -/
theorem switchBranch_eq_app (n : Nat) (h : switchBranch n = some Branch.app) :
    n = IPMI_NETFN_APP := by
  unfold switchBranch at h
  split_ifs at h with h0 h1 h2 h3 <;> first | exact h3 | simp at h

/-- The router calls no handler unless its switch selects the APP case. -/
theorem calls_eq_nil_of_not_app {A S : Type} (s : List Nat) (addr : A) (server : S)
    (h : netFunctionOf (DeserializeIPMI s).message ≠ IPMI_NETFN_APP) :
    (IPMIDeserializeAndExecute s addr server).calls = [] := by
  simp only [IPMIDeserializeAndExecute]
  split
  · next hb => exact absurd (switchBranch_eq_app _ hb) h
  · rfl

/-- The router on a request whose network function is APP. -/
theorem execute_app {A S : Type} (s : List Nat) (addr : A) (server : S)
    (h : netFunctionOf (DeserializeIPMI s).message = IPMI_NETFN_APP) :
    IPMIDeserializeAndExecute s addr server
      = { branch := some Branch.app
          calls := [{ addr := addr, server := server, wrapper := (DeserializeIPMI s).wrapper,
                      message := (DeserializeIPMI s).message }] } := by
  simp only [IPMIDeserializeAndExecute, h, switchBranch_app]

/-- C11: for every request whose network function code `(TargetLun & 0xFC) >> 2` is
neither CHASSIS (0x00) nor APP (0x06), `IPMIDeserializeAndExecute` calls no command handler;
the connection to the UDP peer is only ever handed to a handler, so nothing is written to
it. -/
theorem C11_unknown_netfn_silent {A S : Type} (s : List Nat) (addr : A) (server : S)
    (hChassis : netFunctionOf (DeserializeIPMI s).message ≠ IPMI_NETFN_CHASSIS)
    (hApp : netFunctionOf (DeserializeIPMI s).message ≠ IPMI_NETFN_APP) :
    (IPMIDeserializeAndExecute s addr server).calls = []
      ∧ (IPMIDeserializeAndExecute s addr server).branch ≠ some Branch.chassis
      ∧ (IPMIDeserializeAndExecute s addr server).branch ≠ some Branch.app := by
  refine ⟨calls_eq_nil_of_not_app s addr server hApp, ?_, ?_⟩
  · rw [branch_eq_switch]
    intro hb
    unfold switchBranch at hb
    split_ifs at hb with h0 <;> first | exact hChassis h0 | simp at hb
  · rw [branch_eq_switch]
    intro hb
    exact hApp (switchBranch_eq_app _ hb)

/-- C11 (witness): the STORAGE request frame reaches no handler. -/
theorem C11_unknown_netfn_silent_witness :
    netFunctionOf (DeserializeIPMI storageFrame).message = IPMI_NETFN_STORAGE
      ∧ (IPMIDeserializeAndExecute storageFrame () ()).calls = []
      ∧ (IPMIDeserializeAndExecute storageFrame () ()).branch ≠ some Branch.chassis
      ∧ (IPMIDeserializeAndExecute storageFrame () ()).branch ≠ some Branch.app :=
  ⟨by decide, C11_unknown_netfn_silent storageFrame () () (by decide) (by decide)⟩

/-- C12 (counterexample): the chassis request frame carries network function CHASSIS, the
router takes the CHASSIS case and calls no handler. -/
theorem C12_chassis_not_dispatched :
    netFunctionOf (DeserializeIPMI chassisFrame).message = IPMI_NETFN_CHASSIS
      ∧ (IPMIDeserializeAndExecute chassisFrame () ()).branch = some Branch.chassis
      ∧ (IPMIDeserializeAndExecute chassisFrame () ()).calls = [] := by
  decide

/-- C12 (amended): for every request whose network function code is APP (0x06),
`IPMIDeserializeAndExecute` makes exactly one handler call, to the APP handler, with the
decoded wrapper and message unchanged; for every request whose network function code is
CHASSIS (0x00) it takes the CHASSIS case, which only logs, and calls no handler. -/
theorem C12_dispatch_amended {A S : Type} (s : List Nat) (addr : A) (server : S) :
    (netFunctionOf (DeserializeIPMI s).message = IPMI_NETFN_APP →
        (IPMIDeserializeAndExecute s addr server).branch = some Branch.app
          ∧ (IPMIDeserializeAndExecute s addr server).calls
              = [{ addr := addr, server := server, wrapper := (DeserializeIPMI s).wrapper,
                   message := (DeserializeIPMI s).message }])
      ∧ (netFunctionOf (DeserializeIPMI s).message = IPMI_NETFN_CHASSIS →
        (IPMIDeserializeAndExecute s addr server).branch = some Branch.chassis
          ∧ (IPMIDeserializeAndExecute s addr server).calls = []) := by
  refine ⟨fun hApp => ?_, fun hCh => ?_⟩
  · rw [execute_app s addr server hApp]
    exact ⟨rfl, rfl⟩
  · refine ⟨?_, calls_eq_nil_of_not_app s addr server ?_⟩
    · rw [branch_eq_switch, hCh]
      rfl
    · rw [hCh]
      decide

/-- C12 (witness): the APP request frame is handed to the APP handler once, as decoded. -/
theorem C12_dispatch_amended_witness :
    netFunctionOf (DeserializeIPMI requestFrame).message = IPMI_NETFN_APP
      ∧ (IPMIDeserializeAndExecute requestFrame () ()).branch = some Branch.app
      ∧ (IPMIDeserializeAndExecute requestFrame () ()).calls
          = [{ addr := (), server := (), wrapper := (DeserializeIPMI requestFrame).wrapper,
               message := (DeserializeIPMI requestFrame).message }] :=
  ⟨by decide,
    (C12_dispatch_amended requestFrame () ()).1 (by decide)⟩

end Protocol

namespace Model

/-! ## The managed target: lemmas and claims -/

/-- A successful lookup returns the machine the backend knows, under the name asked for. -/
theorem GetMachine_eq_some (backend : Backend) (name : String) (machine : Machine)
    (h : GetMachine backend name = some machine) :
    backend.machine = some machine ∧ machine.Name = name := by
  unfold GetMachine at h
  cases hm : backend.machine with
  | none => simp [hm] at h
  | some m =>
    simp only [hm] at h
    split_ifs at h with hn
    · cases h
      exact ⟨rfl, hn⟩

/-- A lookup under the name of the machine the backend knows succeeds. -/
theorem GetMachine_of_machine (backend : Backend) (machine : Machine)
    (h : backend.machine = some machine) :
    GetMachine backend machine.Name = some machine := by
  simp [GetMachine, h]

/-- The loop of `SetBootDevice` appends, in order, the devices that differ from `dev`. -/
theorem foldl_bootOrder (dev : String) (order acc : List String) :
    order.foldl (fun acc d => if d ≠ dev then acc ++ [d] else acc) acc
      = acc ++ order.filter (fun d => decide (d ≠ dev)) := by
  induction order generalizing acc with
  | nil => simp
  | cons d order ih =>
    rw [List.foldl_cons, ih]
    by_cases hd : d = dev
    · simp [hd]
    · simp [hd]

/-- What `SetBootDevice` returns when the lookup succeeds. -/
theorem SetBootDevice_eq (inst : Instance) (backend : Backend) (machine : Machine)
    (dev : String) (h : GetMachine backend inst.Name = some machine) :
    SetBootDevice inst backend dev
      = Outcome.returned
          ({ inst with nextBootOrder := dev :: machine.BootOrder.filter (fun d => decide (d ≠ dev)),
                       changeBootOrder := true }, backend) := by
  simp only [SetBootDevice, h, foldl_bootOrder, List.singleton_append]

/-- What `PowerOn` returns when the lookup succeeds. -/
theorem PowerOn_eq (inst : Instance) (backend : Backend) (machine : Machine)
    (h : GetMachine backend inst.Name = some machine) :
    PowerOn inst backend
      = if inst.changeBootOrder then
          Outcome.returned
            ({ inst with lastBootOrder := machine.BootOrder,
                         nextBootOrder := List.replicate 4 "",
                         changeBootOrder := false, needToRestoreBootOrder := true },
             { machine := some { machine with State := MachineState.Running,
                                              BootOrder := inst.nextBootOrder }
               ops := backend.ops ++ [BackendOp.modify inst.nextBootOrder, BackendOp.start] })
        else
          Outcome.returned
            (inst, { machine := some { machine with State := MachineState.Running }
                     ops := backend.ops ++ [BackendOp.start] }) := by
  obtain ⟨hm, _⟩ := GetMachine_eq_some backend inst.Name machine h
  simp only [PowerOn, h, Machine.Modify, Machine.Start, hm, Option.map_some',
    List.append_assoc, List.singleton_append]

/-- What `PowerOff` returns when the lookup succeeds. -/
theorem PowerOff_eq (inst : Instance) (backend : Backend) (machine : Machine)
    (h : GetMachine backend inst.Name = some machine) :
    PowerOff inst backend
      = if inst.needToRestoreBootOrder then
          Outcome.returned
            ({ inst with lastBootOrder := List.replicate 4 "",
                         needToRestoreBootOrder := false },
             { machine := some { machine with State := MachineState.Poweroff,
                                              BootOrder := inst.lastBootOrder }
               ops := backend.ops ++ [BackendOp.stop, BackendOp.modify inst.lastBootOrder] })
        else
          Outcome.returned
            (inst, { machine := some { machine with State := MachineState.Poweroff }
                     ops := backend.ops ++ [BackendOp.stop] }) := by
  obtain ⟨hm, _⟩ := GetMachine_eq_some backend inst.Name machine h
  simp only [PowerOff, h, Machine.Modify, Machine.Stop, hm, Option.map_some',
    List.append_assoc, List.singleton_append]

/-- C13: when the backend lookup succeeds and the machine has boot order `B`, the calls
`SetBootDevice(d)`, `PowerOn()`, `PowerOff()` on the same instance all return; the boot
order is still `B` after `SetBootDevice`, it is the staged order (`d` first, then the other
devices of `B`) between `PowerOn` and `PowerOff`, and it is `B` again after `PowerOff`. -/
theorem C13_boot_order_restored (inst : Instance) (backend : Backend) (machine : Machine)
    (dev : String) (h : GetMachine backend inst.Name = some machine) :
    ∃ i1 b1 i2 b2 i3 b3,
      SetBootDevice inst backend dev = Outcome.returned (i1, b1)
        ∧ PowerOn i1 b1 = Outcome.returned (i2, b2)
        ∧ PowerOff i2 b2 = Outcome.returned (i3, b3)
        ∧ b1.bootOrder = some machine.BootOrder
        ∧ b2.bootOrder = some (dev :: machine.BootOrder.filter (fun d => decide (d ≠ dev)))
        ∧ b3.bootOrder = some machine.BootOrder := by
  obtain ⟨hm, hn⟩ := GetMachine_eq_some backend inst.Name machine h
  have h1 := SetBootDevice_eq inst backend machine dev h
  have h2 := PowerOn_eq
    { inst with nextBootOrder := dev :: machine.BootOrder.filter (fun d => decide (d ≠ dev)),
                changeBootOrder := true } backend machine h
  simp only [if_true] at h2
  have h3 := PowerOff_eq
    { inst with lastBootOrder := machine.BootOrder, nextBootOrder := List.replicate 4 "",
                changeBootOrder := false, needToRestoreBootOrder := true }
    { machine := some { machine with
        State := MachineState.Running,
        BootOrder := dev :: machine.BootOrder.filter (fun d => decide (d ≠ dev)) }
      ops := backend.ops ++ [BackendOp.modify
        (dev :: machine.BootOrder.filter (fun d => decide (d ≠ dev))), BackendOp.start] }
    { machine with
        State := MachineState.Running,
        BootOrder := dev :: machine.BootOrder.filter (fun d => decide (d ≠ dev)) }
    (by simp [GetMachine, hn])
  simp only [if_true] at h3
  exact ⟨_, _, _, _, _, _, h1, h2, h3, by simp [Backend.bootOrder, hm],
    by simp [Backend.bootOrder], by simp [Backend.bootOrder]⟩

/-- C13 (witness): the three calls on a fresh instance for `vm1`, staging `net`. -/
theorem C13_boot_order_restored_witness :
    GetMachine backendWithVm1 (newInstance "vm1").Name = some vm1
      ∧ ∃ i1 b1 i2 b2 i3 b3,
        SetBootDevice (newInstance "vm1") backendWithVm1 "net" = Outcome.returned (i1, b1)
          ∧ PowerOn i1 b1 = Outcome.returned (i2, b2)
          ∧ PowerOff i2 b2 = Outcome.returned (i3, b3)
          ∧ b1.bootOrder = some vm1.BootOrder
          ∧ b2.bootOrder = some ("net" :: vm1.BootOrder.filter (fun d => decide (d ≠ "net")))
          ∧ b3.bootOrder = some vm1.BootOrder :=
  ⟨by decide, C13_boot_order_restored (newInstance "vm1") backendWithVm1 vm1 "net" (by decide)⟩


/-- One call on an instance whose lookup succeeds returns, the lookup still succeeds
afterwards, and the two flags are not both set afterwards when they were not both set
before and `SetBootDevice` was not called with a restore pending. -/
theorem Call.run_flags (call : Call) (inst : Instance) (backend : Backend) (machine : Machine)
    (h : GetMachine backend inst.Name = some machine)
    (hflags : ¬ (inst.changeBootOrder = true ∧ inst.needToRestoreBootOrder = true))
    (hguard : ∀ dev, call = Call.setBootDevice dev → inst.needToRestoreBootOrder = false) :
    ∃ inst1 backend1 machine1,
      call.run inst backend = Outcome.returned (inst1, backend1)
        ∧ GetMachine backend1 inst1.Name = some machine1
        ∧ ¬ (inst1.changeBootOrder = true ∧ inst1.needToRestoreBootOrder = true) := by
  obtain ⟨hm, hn⟩ := GetMachine_eq_some backend inst.Name machine h
  cases call with
  | setBootDevice dev =>
    refine ⟨_, _, machine, SetBootDevice_eq inst backend machine dev h, h, ?_⟩
    simp [hguard dev rfl]
  | powerOn =>
    simp only [Call.run, PowerOn_eq inst backend machine h]
    by_cases hc : inst.changeBootOrder = true
    · rw [if_pos hc]
      exact ⟨_, _, _, rfl, by simp [GetMachine, hn]; rfl, by simp⟩
    · rw [if_neg hc]
      exact ⟨_, _, _, rfl, by simp [GetMachine, hn]; rfl, hflags⟩
  | powerOff =>
    simp only [Call.run, PowerOff_eq inst backend machine h]
    by_cases hr : inst.needToRestoreBootOrder = true
    · rw [if_pos hr]
      exact ⟨_, _, _, rfl, by simp [GetMachine, hn]; rfl, by simp⟩
    · rw [if_neg hr]
      exact ⟨_, _, _, rfl, by simp [GetMachine, hn]; rfl, hflags⟩

/-- The flag property of a run of calls, from any state in which it holds. -/
theorem runCalls_flags (calls : List Call) (inst : Instance) (backend : Backend)
    (machine : Machine) (h : GetMachine backend inst.Name = some machine)
    (hflags : ¬ (inst.changeBootOrder = true ∧ inst.needToRestoreBootOrder = true))
    (hguard : stagesOnlyWhenRestored calls inst backend = true) :
    ∃ inst1 backend1,
      runCalls calls inst backend = Outcome.returned (inst1, backend1)
        ∧ ¬ (inst1.changeBootOrder = true ∧ inst1.needToRestoreBootOrder = true) := by
  induction calls generalizing inst backend machine with
  | nil => exact ⟨inst, backend, rfl, hflags⟩
  | cons call calls ih =>
    simp only [stagesOnlyWhenRestored, Bool.and_eq_true] at hguard
    have hstep : ∀ dev, call = Call.setBootDevice dev → inst.needToRestoreBootOrder = false := by
      intro dev hcall
      have h1 := hguard.1
      rw [hcall] at h1
      simpa using h1
    obtain ⟨inst1, backend1, machine1, hrun, hlook, hfl⟩ :=
      Call.run_flags call inst backend machine h hflags hstep
    have h2 := hguard.2
    rw [hrun] at h2
    obtain ⟨inst2, backend2, hrest, hfl2⟩ := ih inst1 backend1 machine1 hlook hfl h2
    refine ⟨inst2, backend2, ?_, hfl2⟩
    simp only [runCalls, hrun, hrest]

/-- C14 (counterexample): from a freshly added instance the calls `SetBootDevice`,
`PowerOn`, `SetBootDevice`, with the backend lookup succeeding each time, reach a state in
which `changeBootOrder` and `needToRestoreBootOrder` are both true. -/
theorem C14_both_flags_set :
    (newInstance "vm1").changeBootOrder = false
      ∧ (newInstance "vm1").needToRestoreBootOrder = false
      ∧ ∃ inst backend,
        runCalls [Call.setBootDevice "net", Call.powerOn, Call.setBootDevice "dvd"]
            (newInstance "vm1") backendWithVm1 = Outcome.returned (inst, backend)
          ∧ inst.changeBootOrder = true ∧ inst.needToRestoreBootOrder = true :=
  ⟨rfl, rfl,
    { Name := "vm1", lastBootOrder := ["disk", "dvd", "net", "none"],
      nextBootOrder := ["dvd", "net", "disk", "none"], needToRestoreBootOrder := true,
      changeBootOrder := true },
    { machine := some { Name := "vm1", State := MachineState.Running,
                        BootOrder := ["net", "disk", "dvd", "none"] }
      ops := [BackendOp.modify ["net", "disk", "dvd", "none"], BackendOp.start] },
    by decide, rfl, rfl⟩

/-- C14 (amended): from a freshly added instance (both flags false), every sequence of
`SetBootDevice`, `PowerOn` and `PowerOff` calls with a succeeding backend in which
`SetBootDevice` is never called while `needToRestoreBootOrder` is true runs to its end, and
in the state it reaches at most one of `changeBootOrder` and `needToRestoreBootOrder` is
true. -/
theorem C14_flags_amended (calls : List Call) (name : String) (backend : Backend)
    (machine : Machine) (h : GetMachine backend name = some machine)
    (hguard : stagesOnlyWhenRestored calls (newInstance name) backend = true) :
    ∃ inst1 backend1,
      runCalls calls (newInstance name) backend = Outcome.returned (inst1, backend1)
        ∧ ¬ (inst1.changeBootOrder = true ∧ inst1.needToRestoreBootOrder = true) :=
  runCalls_flags calls (newInstance name) backend machine h (by simp [newInstance]) hguard

/-- C14 (witness): stage, power on, power off, stage again, power on. -/
theorem C14_flags_amended_witness :
    GetMachine backendWithVm1 "vm1" = some vm1
      ∧ stagesOnlyWhenRestored
          [Call.setBootDevice "net", Call.powerOn, Call.powerOff, Call.setBootDevice "dvd",
            Call.powerOn] (newInstance "vm1") backendWithVm1 = true
      ∧ ∃ inst1 backend1,
        runCalls
            [Call.setBootDevice "net", Call.powerOn, Call.powerOff, Call.setBootDevice "dvd",
              Call.powerOn] (newInstance "vm1") backendWithVm1
          = Outcome.returned (inst1, backend1)
          ∧ ¬ (inst1.changeBootOrder = true ∧ inst1.needToRestoreBootOrder = true) :=
  ⟨by decide, by decide,
    C14_flags_amended
      [Call.setBootDevice "net", Call.powerOn, Call.powerOff, Call.setBootDevice "dvd",
        Call.powerOn] "vm1" backendWithVm1 vm1 (by decide) (by decide)⟩


/-- C16 (evaluation): with a backend that knows no machine the lookup fails, and each of
`SetBootDevice`, `PowerOn` and `PowerOff` ends the process with exit status 1 instead of
returning to its caller; `IsRunning` on the same input returns `false`. -/
theorem C16_lookup_failure_exits :
    GetMachine backendWithoutMachine (newInstance "vm1").Name = none
      ∧ SetBootDevice (newInstance "vm1") backendWithoutMachine "net" = Outcome.exited 1
      ∧ PowerOn (newInstance "vm1") backendWithoutMachine = Outcome.exited 1
      ∧ PowerOff (newInstance "vm1") backendWithoutMachine = Outcome.exited 1
      ∧ IsRunning (newInstance "vm1") backendWithoutMachine = false := by
  decide

/-- C17: when the backend lookup succeeds and the machine has boot order `B`,
`SetBootDevice(d)` returns with `changeBootOrder` true and `nextBootOrder` equal to `d`
followed by the devices of `B` other than `d` in their order; `d` occurs in it exactly once,
at the head, and when `d` occurs exactly once in `B` the staged order is a permutation of
`B`.  The backend (the boot order of the machine included), `lastBootOrder` and
`needToRestoreBootOrder` are as before. -/
theorem C17_staged_boot_order (inst : Instance) (backend : Backend) (machine : Machine)
    (dev : String) (h : GetMachine backend inst.Name = some machine) :
    ∃ i1,
      SetBootDevice inst backend dev = Outcome.returned (i1, backend)
        ∧ i1.changeBootOrder = true
        ∧ i1.nextBootOrder = dev :: machine.BootOrder.filter (fun d => decide (d ≠ dev))
        ∧ i1.nextBootOrder.count dev = 1
        ∧ i1.nextBootOrder.head? = some dev
        ∧ (machine.BootOrder.count dev = 1 → i1.nextBootOrder.Perm machine.BootOrder)
        ∧ backend.bootOrder = some machine.BootOrder
        ∧ i1.lastBootOrder = inst.lastBootOrder
        ∧ i1.needToRestoreBootOrder = inst.needToRestoreBootOrder
        ∧ i1.Name = inst.Name := by
  obtain ⟨hm, _⟩ := GetMachine_eq_some backend inst.Name machine h
  refine ⟨_, SetBootDevice_eq inst backend machine dev h, rfl, rfl, ?_, rfl, ?_, ?_, rfl, rfl,
    rfl⟩
  · have hnot : dev ∉ machine.BootOrder.filter (fun d => decide (d ≠ dev)) := by
      simp [List.mem_filter]
    have hzero := List.count_eq_zero_of_not_mem hnot
    rw [List.count_cons_self, hzero]
  · intro hcount
    have hperm := List.filter_append_perm (fun d => decide (d = dev)) machine.BootOrder
    have heq : machine.BootOrder.filter (fun d => decide (d = dev)) = [dev] := by
      rw [List.filter_eq, hcount]
      rfl
    rw [heq] at hperm
    have hfun : (fun d : String => !decide (d = dev)) = (fun d => decide (d ≠ dev)) := by
      funext d
      simp
    rw [hfun] at hperm
    exact hperm
  · simp [Backend.bootOrder, hm]

/-- C17 (witness): staging `net` for `vm1`, whose boot order holds `net` once. -/
theorem C17_staged_boot_order_witness :
    GetMachine backendWithVm1 (newInstance "vm1").Name = some vm1
      ∧ vm1.BootOrder.count "net" = 1
      ∧ ∃ i1,
        SetBootDevice (newInstance "vm1") backendWithVm1 "net"
            = Outcome.returned (i1, backendWithVm1)
          ∧ i1.changeBootOrder = true
          ∧ i1.nextBootOrder = "net" :: vm1.BootOrder.filter (fun d => decide (d ≠ "net"))
          ∧ i1.nextBootOrder.count "net" = 1
          ∧ i1.nextBootOrder.head? = some "net"
          ∧ (vm1.BootOrder.count "net" = 1 → i1.nextBootOrder.Perm vm1.BootOrder)
          ∧ backendWithVm1.bootOrder = some vm1.BootOrder
          ∧ i1.lastBootOrder = (newInstance "vm1").lastBootOrder
          ∧ i1.needToRestoreBootOrder = (newInstance "vm1").needToRestoreBootOrder
          ∧ i1.Name = (newInstance "vm1").Name :=
  ⟨by decide, by decide,
    C17_staged_boot_order (newInstance "vm1") backendWithVm1 vm1 "net" (by decide)⟩

end Model

namespace Protocol

/-! ## The codec as it behaves: decoding encoded frames, checksum coverage, length wrap -/

/-- Reading back the four bytes `putUint32` stores gives the value, for a `uint32`. -/
theorem uint32OfBytes_putUint32 (v : Nat) (h : v < 2 ^ 32) :
    uint32OfBytes (v / 2 ^ 24 % 256) (v / 2 ^ 16 % 256) (v / 2 ^ 8 % 256) (v % 256) = v := by
  rw [uint32OfBytes_eq _ _ _ _ (Nat.mod_lt _ (by decide)) (Nat.mod_lt _ (by decide))
    (Nat.mod_lt _ (by decide))]
  exact (bigEndian_digits v h).symm

/-- C18: for every wrapper (its sequence number and session id being `uint32` values) and
every message with at most 247 data bytes, `DeserializeIPMI` on the frame `SerializeIPMI`
writes returns length 16, the same authentication type, sequence number and session id,
`MessageLen = len(Data) + 8`, the same target address, target LUN, source address, source
LUN and command, `Data` equal to the completion code followed by the encoded data, and in
`Checksum` and `DataChecksum` the two checksums `SerializeIPMI` computed; its
`CompletionCode` is 0 and the reader is drained. -/
theorem C18_decode_of_encoded (w : IPMISessionWrapper) (m : IPMIMessage)
    (hlen : m.Data.length ≤ 247) (hSeq : w.SequenceNumber < 2 ^ 32)
    (hSid : w.SessionId < 2 ^ 32) :
    DeserializeIPMI (SerializeIPMI [] w m)
      = { length := 16
          wrapper := { AuthenticationType := w.AuthenticationType,
                       SequenceNumber := w.SequenceNumber, SessionId := w.SessionId,
                       MessageLen := m.Data.length + 8 }
          message :=
            { TargetAddress := m.TargetAddress, TargetLun := m.TargetLun,
              Checksum := (0x100 - (m.TargetAddress + m.TargetLun) % 256) % 256,
              SourceAddress := m.SourceAddress, SourceLun := m.SourceLun,
              Command := m.Command, CompletionCode := 0,
              Data := m.CompletionCode :: m.Data,
              DataChecksum :=
                (0x100 - (m.SourceAddress + m.SourceLun + m.Command + m.Data.sum) % 256)
                  % 256 }
          rest := [] } := by
  have hml : messageLenOf m = m.Data.length + 8 := by
    rw [messageLenOf_eq]
    omega
  have hdl : dataLenOf (m.Data.length + 8) = m.Data.length + 1 := by
    rw [dataLenOf_eq _ (by omega)]
    omega
  rw [SerializeIPMI_eq, putUint32_eq, putUint32_eq, hml]
  simp only [List.nil_append, List.cons_append]
  rw [DeserializeIPMI_header, hdl, if_pos (by omega),
    readSlice_enough _ _ (by simp), uint32OfBytes_putUint32 _ hSeq,
    uint32OfBytes_putUint32 _ hSid, headerChecksumOf_eq, dataChecksumOf_eq]
  simp [readUint8]

/-- C18 (witness): decoding the frame written for the sample wrapper and message. -/
theorem C18_decode_of_encoded_witness :
    sampleMessage.Data.length ≤ 247 ∧ sampleWrapper.SequenceNumber < 2 ^ 32
      ∧ sampleWrapper.SessionId < 2 ^ 32
      ∧ DeserializeIPMI (SerializeIPMI [] sampleWrapper sampleMessage)
        = { length := 16
            wrapper := { AuthenticationType := sampleWrapper.AuthenticationType,
                         SequenceNumber := sampleWrapper.SequenceNumber,
                         SessionId := sampleWrapper.SessionId,
                         MessageLen := sampleMessage.Data.length + 8 }
            message :=
              { TargetAddress := sampleMessage.TargetAddress,
                TargetLun := sampleMessage.TargetLun,
                Checksum :=
                  (0x100 - (sampleMessage.TargetAddress + sampleMessage.TargetLun) % 256) % 256,
                SourceAddress := sampleMessage.SourceAddress,
                SourceLun := sampleMessage.SourceLun,
                Command := sampleMessage.Command, CompletionCode := 0,
                Data := sampleMessage.CompletionCode :: sampleMessage.Data,
                DataChecksum :=
                  (0x100 - (sampleMessage.SourceAddress + sampleMessage.SourceLun
                    + sampleMessage.Command + sampleMessage.Data.sum) % 256) % 256 }
            rest := [] } :=
  ⟨by decide, by decide, by decide,
    C18_decode_of_encoded sampleWrapper sampleMessage (by decide) (by decide) (by decide)⟩

/-- C19: in the frame `SerializeIPMI` writes, the bytes from offset 13 (source address) to
the last byte (trailing checksum) sum to the completion code modulo 256; so, the completion
code being a byte, the bytes after the header checksum sum to 0 modulo 256 exactly when the
completion code is 0. -/
theorem C19_completion_code_not_covered (w : IPMISessionWrapper) (m : IPMIMessage)
    (hcc : m.CompletionCode < 256) :
    ((SerializeIPMI [] w m).drop 13).sum % 256 = m.CompletionCode % 256
      ∧ (((SerializeIPMI [] w m).drop 13).sum % 256 = 0 ↔ m.CompletionCode = 0) := by
  have hsum : ((SerializeIPMI [] w m).drop 13).sum
      = m.SourceAddress + (m.SourceLun + (m.Command + (m.CompletionCode
          + (m.Data.sum + dataChecksumOf m)))) := by
    rw [SerializeIPMI_eq, putUint32_eq, putUint32_eq]
    simp
  rw [hsum, dataChecksumOf_eq]
  constructor
  · omega
  · omega

/-- C19 (witness): the frame of the sample message, whose completion code is `0xAA`. -/
theorem C19_completion_code_not_covered_witness :
    sampleMessage.CompletionCode < 256
      ∧ ((SerializeIPMI [] sampleWrapper sampleMessage).drop 13).sum % 256
          = sampleMessage.CompletionCode % 256
      ∧ (((SerializeIPMI [] sampleWrapper sampleMessage).drop 13).sum % 256 = 0
          ↔ sampleMessage.CompletionCode = 0) :=
  ⟨by decide, C19_completion_code_not_covered sampleWrapper sampleMessage (by decide)⟩


/-- The length `DeserializeIPMI` returns does not depend on the stream. -/
theorem DeserializeIPMI_length (s : List Nat) : (DeserializeIPMI s).length = 16 := by
  have h16 : add32 (add32 0 LEN_IPMISESSIONWRAPPER) LEN_IPMIMESSAGE_HEADER = 16 := by decide
  simp only [DeserializeIPMI, h16]

/-- The payload stage returns as many data bytes as the payload length says, whether the
read succeeds or falls short. -/
theorem payload_length (n : Nat) (buf : List Nat) :
    (if n > 0 then readSlice buf (List.replicate n 0) else ([], buf)).1.length = n := by
  by_cases hpos : n > 0
  · rw [if_pos hpos]
    unfold readSlice
    split_ifs with hle
    · simp only [List.length_replicate] at hle
      simp [hle]
    · simp
  · rw [if_neg hpos]
    simp only [List.length_nil]
    omega

/-- The returned `Data` has the payload length derived from the returned `MessageLen`. -/
theorem DeserializeIPMI_data_length (s : List Nat) :
    (DeserializeIPMI s).message.Data.length = dataLenOf (DeserializeIPMI s).wrapper.MessageLen := by
  simp only [DeserializeIPMI]
  exact payload_length _ _

/-- The `MessageLen` read from a stream of bytes is a byte. -/
theorem messageLen_lt (s : List Nat) (hbytes : ∀ b ∈ s, b < 256) :
    (DeserializeIPMI s).wrapper.MessageLen < 256 := by
  simp only [DeserializeIPMI]
  unfold readWrapper
  split
  · next a s0 s1 s2 s3 i0 i1 i2 i3 l rest => exact hbytes l (by simp)
  · decide


/-- The first byte of what is left after dropping `k` bytes is byte `k`. -/
theorem getD_drop_zero (s : List Nat) (k d : Nat) : (s.drop k).getD 0 d = s.getD k d := by
  simp [List.getD_eq_getElem?_getD, List.getElem?_drop]

/-- The wrapper read on a stream shorter than the wrapper: nothing is stored, the reader is
drained. -/
theorem readWrapper_short (s : List Nat) (old : IPMISessionWrapper) (h : s.length < 10) :
    readWrapper s old = (old, []) := by
  unfold readWrapper
  split
  · next a s0 s1 s2 s3 i0 i1 i2 i3 l rest =>
    simp only [List.length_cons] at h
    omega
  · rfl

/-- The wrapper read on a stream that holds the wrapper. -/
theorem readWrapper_enough (s : List Nat) (old : IPMISessionWrapper) (h : 10 ≤ s.length) :
    readWrapper s old
      = ({ AuthenticationType := s.getD 0 0,
           SequenceNumber := uint32OfBytes (s.getD 1 0) (s.getD 2 0) (s.getD 3 0) (s.getD 4 0),
           SessionId := uint32OfBytes (s.getD 5 0) (s.getD 6 0) (s.getD 7 0) (s.getD 8 0),
           MessageLen := s.getD 9 0 }, s.drop 10) := by
  obtain ⟨a, s0, s1, s2, s3, i0, i1, i2, i3, l0, t, rfl⟩ := exists_wrapper_bytes s h
  rfl

/-- The reader after the wrapper read, whether it succeeds or falls short. -/
theorem readWrapper_snd (s : List Nat) (old : IPMISessionWrapper) :
    (readWrapper s old).2 = s.drop 10 := by
  by_cases h : 10 ≤ s.length
  · rw [readWrapper_enough s old h]
  · rw [readWrapper_short s old (by omega)]
    exact (List.drop_eq_nil_of_le (by omega)).symm

/-- The decoder on any stream: the wrapper read decides the wrapper, each header field is
its byte of the stream or 0 when the stream ends before it, and the payload and the trailing
checksum are read from what follows byte 15. -/
theorem DeserializeIPMI_eq (s : List Nat) :
    DeserializeIPMI s
      = { length := 16
          wrapper := (readWrapper s IPMISessionWrapper.zero).1
          message :=
            { TargetAddress := s.getD 10 0, TargetLun := s.getD 11 0, Checksum := s.getD 12 0,
              SourceAddress := s.getD 13 0, SourceLun := s.getD 14 0, Command := s.getD 15 0,
              CompletionCode := 0,
              Data := (if dataLenOf (readWrapper s IPMISessionWrapper.zero).1.MessageLen > 0
                then readSlice (s.drop 16)
                  (List.replicate (dataLenOf (readWrapper s IPMISessionWrapper.zero).1.MessageLen) 0)
                else ([], s.drop 16)).1
              DataChecksum := (readUint8
                (if dataLenOf (readWrapper s IPMISessionWrapper.zero).1.MessageLen > 0
                  then readSlice (s.drop 16)
                    (List.replicate
                      (dataLenOf (readWrapper s IPMISessionWrapper.zero).1.MessageLen) 0)
                  else ([], s.drop 16)).2 0).1 }
          rest := (readUint8
                (if dataLenOf (readWrapper s IPMISessionWrapper.zero).1.MessageLen > 0
                  then readSlice (s.drop 16)
                    (List.replicate
                      (dataLenOf (readWrapper s IPMISessionWrapper.zero).1.MessageLen) 0)
                  else ([], s.drop 16)).2 0).2 } := by
  have h16 : add32 (add32 0 LEN_IPMISESSIONWRAPPER) LEN_IPMIMESSAGE_HEADER = 16 := by decide
  simp only [DeserializeIPMI, h16, IPMIMessage.zero, readUint8_snd, readWrapper_snd,
    List.drop_drop, readUint8_fst, getD_drop_zero]

/-- C7 (amended): `DeserializeIPMI` has no failure result.  For every stream that holds
the 10-byte wrapper and fewer bytes after it than the message length the wrapper declares,
it still returns length 16, the wrapper as read from bytes 0..9 and a message: each of the
six header fields is its byte of the stream, or 0 when the stream ends before it, the
completion code is 0, the trailing checksum is left at 0 and the reader is drained; when at
least 8 message bytes are declared, `Data` has the declared `MessageLen - 7` bytes, which are
the rest of the stream when only the trailing checksum is missing and zeros otherwise.
`IPMIDeserializeAndExecute` routes on the returned message, so when its network function is
APP the APP handler is called with the returned wrapper and message. -/
theorem C7_truncated_frame_amended {A S : Type} (s : List Nat) (l : Nat) (addr : A)
    (server : S) (hlen : 10 ≤ s.length) (hl : s[9]? = some l) (hbyte : l < 256)
    (htrunc : s.length - 10 < l) :
    (DeserializeIPMI s).length = 16
      ∧ (DeserializeIPMI s).wrapper
          = { AuthenticationType := s.getD 0 0,
              SequenceNumber :=
                uint32OfBytes (s.getD 1 0) (s.getD 2 0) (s.getD 3 0) (s.getD 4 0),
              SessionId := uint32OfBytes (s.getD 5 0) (s.getD 6 0) (s.getD 7 0) (s.getD 8 0),
              MessageLen := l }
      ∧ (DeserializeIPMI s).message.TargetAddress = s.getD 10 0
      ∧ (DeserializeIPMI s).message.TargetLun = s.getD 11 0
      ∧ (DeserializeIPMI s).message.Checksum = s.getD 12 0
      ∧ (DeserializeIPMI s).message.SourceAddress = s.getD 13 0
      ∧ (DeserializeIPMI s).message.SourceLun = s.getD 14 0
      ∧ (DeserializeIPMI s).message.Command = s.getD 15 0
      ∧ (DeserializeIPMI s).message.CompletionCode = 0
      ∧ (DeserializeIPMI s).message.DataChecksum = 0
      ∧ (DeserializeIPMI s).rest = []
      ∧ (8 ≤ l → (DeserializeIPMI s).message.Data.length = l - 7)
      ∧ (8 ≤ l → (DeserializeIPMI s).message.Data
          = if s.length = 9 + l then s.drop 16 else List.replicate (l - 7) 0)
      ∧ (netFunctionOf (DeserializeIPMI s).message = IPMI_NETFN_APP →
          (IPMIDeserializeAndExecute s addr server).calls
            = [{ addr := addr, server := server, wrapper := (DeserializeIPMI s).wrapper,
                 message := (DeserializeIPMI s).message }]) := by
  have hroute : netFunctionOf (DeserializeIPMI s).message = IPMI_NETFN_APP →
      (IPMIDeserializeAndExecute s addr server).calls
        = [{ addr := addr, server := server, wrapper := (DeserializeIPMI s).wrapper,
             message := (DeserializeIPMI s).message }] := by
    intro happ
    simp only [IPMIDeserializeAndExecute, happ, switchBranch_app]
  have hget : s.getD 9 0 = l := by
    simp [List.getD_eq_getElem?_getD, hl]
  have hdrop : (s.drop 16).length = s.length - 16 := List.length_drop 16 s
  have hdl : 7 ≤ l → dataLenOf l = l - 7 := by
    intro h7
    rw [dataLenOf_eq _ hbyte]
    omega
  have hdl6 : l ≤ 6 → dataLenOf l = l + 249 := by
    intro h6
    rw [dataLenOf_eq _ hbyte]
    omega
  have hshort : (s.drop 16).length ≤ dataLenOf l := by
    rw [hdrop]
    by_cases h7 : 7 ≤ l
    · rw [hdl h7]
      omega
    · rw [hdl6 (by omega)]
      omega
  have hstage := payload_truncated l (s.drop 16) hshort
  refine ⟨DeserializeIPMI_length s, ?_, ?_, ?_, ?_, ?_, ?_, ?_, ?_, ?_, ?_, ?_, ?_, hroute⟩
  · rw [DeserializeIPMI_eq, readWrapper_enough s _ hlen, hget]
  · rw [DeserializeIPMI_eq]
  · rw [DeserializeIPMI_eq]
  · rw [DeserializeIPMI_eq]
  · rw [DeserializeIPMI_eq]
  · rw [DeserializeIPMI_eq]
  · rw [DeserializeIPMI_eq]
  · rw [DeserializeIPMI_eq]
  · rw [DeserializeIPMI_eq, readWrapper_enough s _ hlen, hget]
    simp only
    rw [hstage.1]
  · rw [DeserializeIPMI_eq, readWrapper_enough s _ hlen, hget]
    simp only
    rw [hstage.1]
  · intro h8
    rw [DeserializeIPMI_eq, readWrapper_enough s _ hlen, hget]
    simp only
    rw [hstage.2, hdl (by omega)]
  · intro h8
    rw [DeserializeIPMI_eq, readWrapper_enough s _ hlen, hget]
    simp only
    rw [hdl (by omega), if_pos (by omega)]
    by_cases hex : s.length = 9 + l
    · rw [if_pos hex, readSlice_exact _ _ (by
        rw [hdrop, List.length_replicate]
        omega)]
    · rw [if_neg hex, readSlice_short _ _ (by
        rw [hdrop, List.length_replicate]
        omega)]

/-- C7 (witness): the amended statement at the truncated frame, which declares 12 message
bytes and holds 9. -/
theorem C7_truncated_frame_amended_witness :
    10 ≤ truncatedFrame.length ∧ truncatedFrame[9]? = some 12 ∧ 12 < 256
      ∧ truncatedFrame.length - 10 < 12
      ∧ (DeserializeIPMI truncatedFrame).length = 16
      ∧ (DeserializeIPMI truncatedFrame).wrapper
          = { AuthenticationType := 0, SequenceNumber := 1, SessionId := 2, MessageLen := 12 }
      ∧ (DeserializeIPMI truncatedFrame).message.Data = [0, 0, 0, 0, 0]
      ∧ (IPMIDeserializeAndExecute truncatedFrame () ()).calls
          = [{ addr := (), server := (), wrapper := (DeserializeIPMI truncatedFrame).wrapper,
               message := (DeserializeIPMI truncatedFrame).message }] :=
  ⟨by decide, by decide, by decide, by decide,
    (C7_truncated_frame_amended truncatedFrame 12 () () (by decide) (by decide) (by decide)
      (by decide)).1,
    (C7_truncated_frame_amended truncatedFrame 12 () () (by decide) (by decide) (by decide)
      (by decide)).2.1,
    (C7_truncated_frame_amended truncatedFrame 12 () () (by decide) (by decide) (by decide)
      (by decide)).2.2.2.2.2.2.2.2.2.2.2.2.1 (by decide),
    (C7_truncated_frame_amended truncatedFrame 12 () () (by decide) (by decide) (by decide)
      (by decide)).2.2.2.2.2.2.2.2.2.2.2.2.2 (by decide)⟩


/-- The `MessageLen` the decoder returns is byte 9 of the stream, or 0 when the stream is
shorter than the wrapper. -/
theorem DeserializeIPMI_messageLen (s : List Nat) :
    (DeserializeIPMI s).wrapper.MessageLen = if 10 ≤ s.length then s.getD 9 0 else 0 := by
  rw [DeserializeIPMI_eq]
  by_cases h : 10 ≤ s.length
  · rw [if_pos h, readWrapper_enough s _ h]
  · rw [if_neg h, readWrapper_short s _ (by omega)]
    rfl

/-- C20: for every stream of bytes, the `MessageLen` that `DeserializeIPMI` returns is byte 9
of the stream (0 when the stream is shorter than the wrapper) and the `Data` it returns has
`(MessageLen - 7) mod 256` bytes: it is empty for `MessageLen = 7`, and for `MessageLen` in
0..6 it has `MessageLen + 249` bytes, which are the bytes that follow the six header bytes
when the stream holds that many and zeros when the read falls short.  The returned length
value is 16 whatever the stream. -/
theorem C20_data_length_wraps (s : List Nat) (ml : Nat) (hbytes : ∀ b ∈ s, b < 256)
    (hml : ml = if 10 ≤ s.length then s.getD 9 0 else 0) :
    (DeserializeIPMI s).wrapper.MessageLen = ml
      ∧ (DeserializeIPMI s).length = 16
      ∧ (DeserializeIPMI s).message.Data.length = (ml + 256 - 7) % 256
      ∧ (ml = 7 → (DeserializeIPMI s).message.Data = [])
      ∧ (ml ≤ 6 → (DeserializeIPMI s).message.Data.length = ml + 249)
      ∧ (ml ≤ 6 → 16 + (ml + 249) ≤ s.length →
          (DeserializeIPMI s).message.Data = (s.drop 16).take (ml + 249))
      ∧ (ml ≤ 6 → s.length < 16 + (ml + 249) →
          (DeserializeIPMI s).message.Data = List.replicate (ml + 249) 0) := by
  have hmsg : (DeserializeIPMI s).wrapper.MessageLen = ml := by
    rw [DeserializeIPMI_messageLen, hml]
  have hlt : ml < 256 := by
    rw [← hmsg]
    exact messageLen_lt s hbytes
  have hdata := DeserializeIPMI_data_length s
  rw [hmsg, dataLenOf_eq _ hlt] at hdata
  have hdrop : (s.drop 16).length = s.length - 16 := List.length_drop 16 s
  have hwrap : ml ≤ 6 → dataLenOf ml = ml + 249 := by
    intro h6
    rw [dataLenOf_eq _ hlt]
    omega
  have heq : (DeserializeIPMI s).message.Data
      = (if dataLenOf ml > 0 then readSlice (s.drop 16) (List.replicate (dataLenOf ml) 0)
          else ([], s.drop 16)).1 := by
    rw [← hmsg, DeserializeIPMI_eq]
  refine ⟨hmsg, DeserializeIPMI_length s, ?_, ?_, ?_, ?_, ?_⟩
  · rw [hdata]
    omega
  · intro h7
    apply List.length_eq_zero.mp
    rw [hdata, h7]
  · intro h6
    rw [hdata]
    omega
  · intro h6 hlong
    rw [heq, hwrap h6, if_pos (by omega), readSlice_enough _ _ (by
      rw [hdrop]
      omega)]
  · intro h6 hshort
    rw [heq, hwrap h6, if_pos (by omega), readSlice_short _ _ (by
      rw [hdrop, List.length_replicate]
      omega)]

/-- The wrap stream has 272 bytes. -/
theorem wrapFrame_length : wrapFrame.length = 272 := by
  simp only [wrapFrame, List.length_append, List.length_replicate, List.length_cons,
    List.length_nil]

/-- Every element of the wrap stream is a byte. -/
theorem wrapFrame_bytes : ∀ b ∈ wrapFrame, b < 256 := by
  intro b hb
  simp only [wrapFrame, List.mem_append, List.mem_replicate, List.mem_cons,
    List.mem_singleton, List.not_mem_nil, or_false] at hb
  omega

/-- C20 (witness): two streams whose byte 9 is 6.  The 17-byte frame holds one byte after
the header, so the read of 255 data bytes falls short and `Data` is 255 zeros; the 272-byte
stream holds them, and `Data` is the 255 bytes after the header. -/
theorem C20_data_length_wraps_witness :
    ((∀ b ∈ shortLengthFrame, b < 256)
        ∧ (6 = if 10 ≤ shortLengthFrame.length then shortLengthFrame.getD 9 0 else 0)
        ∧ (DeserializeIPMI shortLengthFrame).wrapper.MessageLen = 6
        ∧ (DeserializeIPMI shortLengthFrame).length = 16
        ∧ (DeserializeIPMI shortLengthFrame).message.Data.length = 6 + 249
        ∧ (DeserializeIPMI shortLengthFrame).message.Data = List.replicate (6 + 249) 0)
      ∧ ((∀ b ∈ wrapFrame, b < 256)
        ∧ (6 = if 10 ≤ wrapFrame.length then wrapFrame.getD 9 0 else 0)
        ∧ (DeserializeIPMI wrapFrame).wrapper.MessageLen = 6
        ∧ (DeserializeIPMI wrapFrame).message.Data.length = 6 + 249
        ∧ (DeserializeIPMI wrapFrame).message.Data = (wrapFrame.drop 16).take (6 + 249)) :=
  have hshort : 6 = if 10 ≤ shortLengthFrame.length then shortLengthFrame.getD 9 0 else 0 := by
    decide
  have hwrap : 6 = if 10 ≤ wrapFrame.length then wrapFrame.getD 9 0 else 0 := by
    rw [wrapFrame_length]
    rfl
  ⟨⟨by decide, hshort,
      (C20_data_length_wraps shortLengthFrame 6 (by decide) hshort).1,
      (C20_data_length_wraps shortLengthFrame 6 (by decide) hshort).2.1,
      (C20_data_length_wraps shortLengthFrame 6 (by decide) hshort).2.2.2.2.1 (by decide),
      (C20_data_length_wraps shortLengthFrame 6 (by decide) hshort).2.2.2.2.2.2 (by decide)
        (by decide)⟩,
    ⟨wrapFrame_bytes, hwrap,
      (C20_data_length_wraps wrapFrame 6 wrapFrame_bytes hwrap).1,
      (C20_data_length_wraps wrapFrame 6 wrapFrame_bytes hwrap).2.2.2.2.1 (by decide),
      (C20_data_length_wraps wrapFrame 6 wrapFrame_bytes hwrap).2.2.2.2.2.1 (by decide)
        (by rw [wrapFrame_length]; decide)⟩⟩

end Protocol

namespace Model

/-- One call on an instance with no restore pending, `PowerOn` only with nothing staged:
the call returns, no restore is pending afterwards, the boot order of the machine is as
before and the backend was sent at most a stop or a start request. -/
theorem Call.run_unstaged (call : Call) (inst : Instance) (backend : Backend)
    (machine : Machine) (h : GetMachine backend inst.Name = some machine)
    (hneed : inst.needToRestoreBootOrder = false)
    (hguard : call = Call.powerOn → inst.changeBootOrder = false) :
    ∃ inst1 backend1 machine1 sent,
      call.run inst backend = Outcome.returned (inst1, backend1)
        ∧ GetMachine backend1 inst1.Name = some machine1
        ∧ inst1.needToRestoreBootOrder = false
        ∧ backend1.bootOrder = backend.bootOrder
        ∧ backend1.ops = backend.ops ++ sent
        ∧ ∀ op ∈ sent, op = BackendOp.stop ∨ op = BackendOp.start := by
  obtain ⟨hm, hn⟩ := GetMachine_eq_some backend inst.Name machine h
  cases call with
  | setBootDevice dev =>
    exact ⟨_, _, machine, [], SetBootDevice_eq inst backend machine dev h, h, hneed, rfl,
      by simp, by simp⟩
  | powerOn =>
    have hc := hguard rfl
    simp only [Call.run, PowerOn_eq inst backend machine h, hc, Bool.false_eq_true, if_false]
    exact ⟨_, _, { machine with State := MachineState.Running }, [BackendOp.start], rfl,
      by simp [GetMachine, hn], hneed, by simp [Backend.bootOrder, hm], rfl, by simp⟩
  | powerOff =>
    simp only [Call.run, PowerOff_eq inst backend machine h, hneed, Bool.false_eq_true,
      if_false]
    exact ⟨_, _, { machine with State := MachineState.Poweroff }, [BackendOp.stop], rfl,
      by simp [GetMachine, hn], hneed, by simp [Backend.bootOrder, hm], rfl, by simp⟩

/-- A run of calls from a state with no restore pending in which no `PowerOn` applies a
staged override: the run returns, no restore is pending at its end, the boot order of the
machine is as before and the backend was sent stop and start requests only. -/
theorem runCalls_unstaged (calls : List Call) (inst : Instance) (backend : Backend)
    (machine : Machine) (h : GetMachine backend inst.Name = some machine)
    (hneed : inst.needToRestoreBootOrder = false)
    (hguard : powersOnOnlyUnstaged calls inst backend = true) :
    ∃ inst2 backend2 machine2 sent,
      runCalls calls inst backend = Outcome.returned (inst2, backend2)
        ∧ GetMachine backend2 inst2.Name = some machine2
        ∧ inst2.needToRestoreBootOrder = false
        ∧ backend2.bootOrder = backend.bootOrder
        ∧ backend2.ops = backend.ops ++ sent
        ∧ ∀ op ∈ sent, op = BackendOp.stop ∨ op = BackendOp.start := by
  induction calls generalizing inst backend machine with
  | nil => exact ⟨inst, backend, machine, [], rfl, h, hneed, rfl, by simp, by simp⟩
  | cons call calls ih =>
    simp only [powersOnOnlyUnstaged, Bool.and_eq_true] at hguard
    have hstep : call = Call.powerOn → inst.changeBootOrder = false := by
      intro hcall
      have h1 := hguard.1
      rw [hcall] at h1
      simpa using h1
    obtain ⟨inst1, backend1, machine1, sent1, hrun, hlook, hneed1, horder1, hops1, hsent1⟩ :=
      Call.run_unstaged call inst backend machine h hneed hstep
    have h2 := hguard.2
    rw [hrun] at h2
    obtain ⟨inst2, backend2, machine2, sent2, hrest, hlook2, hneed2, horder2, hops2, hsent2⟩ :=
      ih inst1 backend1 machine1 hlook hneed1 h2
    refine ⟨inst2, backend2, machine2, sent1 ++ sent2, ?_, hlook2, hneed2, ?_, ?_, ?_⟩
    · simp only [runCalls, hrun, hrest]
    · rw [horder2, horder1]
    · rw [hops2, hops1, List.append_assoc]
    · intro op hop
      rcases List.mem_append.mp hop with hmem | hmem
      · exact hsent1 op hmem
      · exact hsent2 op hmem

/-- C15 (counterexample): on a fresh instance for `vm1`, `SetBootDevice("net")` and
`PowerOff()` leave `needToRestoreBootOrder` false; the only call made before the further
`PowerOff` is a `PowerOn` (no `SetBootDevice` in between), yet that `PowerOff` sends the
backend a modification and changes the boot order of the machine. -/
theorem C15_power_off_after_staged_power_on :
    runCalls [Call.setBootDevice "net", Call.powerOff] (newInstance "vm1") backendWithVm1
        = Outcome.returned (stagedOffInstance, stagedOffBackend)
      ∧ stagedOffInstance.needToRestoreBootOrder = false
      ∧ ∃ i2 b2 i3 b3,
        runCalls [Call.powerOn] stagedOffInstance stagedOffBackend = Outcome.returned (i2, b2)
          ∧ PowerOff i2 b2 = Outcome.returned (i3, b3)
          ∧ b2.bootOrder = some ["net", "disk", "dvd", "none"]
          ∧ b3.bootOrder = some ["disk", "dvd", "net", "none"]
          ∧ b3.bootOrder ≠ b2.bootOrder
          ∧ b3.ops = b2.ops ++ [BackendOp.stop,
              BackendOp.modify ["disk", "dvd", "net", "none"]] :=
  ⟨by decide, rfl,
    poweredOnInstance,
    { machine := some { Name := "vm1", State := MachineState.Running,
                        BootOrder := ["net", "disk", "dvd", "none"] }
      ops := [BackendOp.stop, BackendOp.modify ["net", "disk", "dvd", "none"],
        BackendOp.start] },
    { Name := "vm1", lastBootOrder := ["", "", "", ""], nextBootOrder := ["", "", "", ""],
      needToRestoreBootOrder := false, changeBootOrder := false },
    { machine := some { Name := "vm1", State := MachineState.Poweroff,
                        BootOrder := ["disk", "dvd", "net", "none"] }
      ops := [BackendOp.stop, BackendOp.modify ["net", "disk", "dvd", "none"],
        BackendOp.start, BackendOp.stop, BackendOp.modify ["disk", "dvd", "net", "none"]] },
    by decide, by decide, by decide, by decide, by decide, by decide⟩

/-- C15 (amended): when the backend lookup succeeds, `PowerOff` returns with
`needToRestoreBootOrder` false.  After it, every sequence of `SetBootDevice`, `PowerOn` and
`PowerOff` calls in which no `PowerOn` is called while `changeBootOrder` is true (none
applies a staged override) returns, leaves the boot order of the machine as it was and sends
the backend stop and start requests only; a further `PowerOff` then returns, leaves the
instance and the boot order of the machine as they were and sends a stop request only, no
modification.  Likewise `PowerOn` with `changeBootOrder` false leaves the instance and the
boot order as they were and sends a start request only. -/
theorem C15_power_off_amended (inst : Instance) (backend : Backend) (machine : Machine)
    (between : List Call) (h : GetMachine backend inst.Name = some machine) :
    (∃ i1 b1,
        PowerOff inst backend = Outcome.returned (i1, b1)
          ∧ i1.needToRestoreBootOrder = false
          ∧ (powersOnOnlyUnstaged between i1 b1 = true →
              ∃ i2 b2 b3 sent,
                runCalls between i1 b1 = Outcome.returned (i2, b2)
                  ∧ b2.bootOrder = b1.bootOrder
                  ∧ b2.ops = b1.ops ++ sent
                  ∧ (∀ op ∈ sent, op = BackendOp.stop ∨ op = BackendOp.start)
                  ∧ PowerOff i2 b2 = Outcome.returned (i2, b3)
                  ∧ b3.bootOrder = b1.bootOrder
                  ∧ b3.ops = b2.ops ++ [BackendOp.stop]))
      ∧ (inst.changeBootOrder = false →
          ∃ b4, PowerOn inst backend = Outcome.returned (inst, b4)
            ∧ b4.bootOrder = backend.bootOrder
            ∧ b4.ops = backend.ops ++ [BackendOp.start]) := by
  obtain ⟨hm, hn⟩ := GetMachine_eq_some backend inst.Name machine h
  have hfirst : ∃ i1 b1 m1, PowerOff inst backend = Outcome.returned (i1, b1)
      ∧ i1.needToRestoreBootOrder = false ∧ GetMachine b1 i1.Name = some m1 := by
    rw [PowerOff_eq inst backend machine h]
    by_cases hr : inst.needToRestoreBootOrder = true
    · rw [if_pos hr]
      exact ⟨_, _, { machine with State := MachineState.Poweroff,
                                  BootOrder := inst.lastBootOrder }, rfl, rfl,
        by simp [GetMachine, hn]⟩
    · rw [if_neg hr]
      exact ⟨_, _, { machine with State := MachineState.Poweroff }, rfl, by simpa using hr,
        by simp [GetMachine, hn]⟩
  constructor
  · obtain ⟨i1, b1, m1, hoff, hneed1, hlook1⟩ := hfirst
    refine ⟨i1, b1, hoff, hneed1, ?_⟩
    intro hguard
    obtain ⟨i2, b2, m2, sent, hrun, hlook2, hneed2, horder2, hops2, hsent⟩ :=
      runCalls_unstaged between i1 b1 m1 hlook1 hneed1 hguard
    obtain ⟨hm2, _⟩ := GetMachine_eq_some b2 i2.Name m2 hlook2
    have hoff2 := PowerOff_eq i2 b2 m2 hlook2
    simp only [hneed2, Bool.false_eq_true, if_false] at hoff2
    refine ⟨i2, b2, _, sent, hrun, horder2, hops2, hsent, hoff2, ?_, rfl⟩
    rw [← horder2]
    simp [Backend.bootOrder, hm2]
  · intro hc
    rw [PowerOn_eq inst backend machine h]
    simp only [hc, Bool.false_eq_true, if_false]
    exact ⟨_, rfl, by simp [Backend.bootOrder, hm], rfl⟩

/-- C15 (witness): `vm1` runs with an applied override.  `PowerOff` restores the boot
order; then `PowerOn`, `SetBootDevice("dvd")` and `PowerOff` follow, of which none applies an
override; the further `PowerOff` sends a stop request only and the boot order is still the
restored one.  A `PowerOn` in the first state, where nothing is staged, sends a start request
only. -/
theorem C15_power_off_amended_witness :
    GetMachine poweredOnBackend poweredOnInstance.Name
        = some { Name := "vm1", State := MachineState.Running,
                 BootOrder := ["net", "disk", "dvd", "none"] }
      ∧ (∃ i1 b1,
        PowerOff poweredOnInstance poweredOnBackend = Outcome.returned (i1, b1)
          ∧ i1.needToRestoreBootOrder = false
          ∧ b1.bootOrder = some ["disk", "dvd", "net", "none"]
          ∧ powersOnOnlyUnstaged [Call.powerOn, Call.setBootDevice "dvd", Call.powerOff] i1 b1
              = true
          ∧ ∃ i2 b2 b3 sent,
              runCalls [Call.powerOn, Call.setBootDevice "dvd", Call.powerOff] i1 b1
                  = Outcome.returned (i2, b2)
                ∧ b2.bootOrder = b1.bootOrder
                ∧ b2.ops = b1.ops ++ sent
                ∧ (∀ op ∈ sent, op = BackendOp.stop ∨ op = BackendOp.start)
                ∧ PowerOff i2 b2 = Outcome.returned (i2, b3)
                ∧ b3.bootOrder = b1.bootOrder
                ∧ b3.ops = b2.ops ++ [BackendOp.stop])
      ∧ poweredOnInstance.changeBootOrder = false
      ∧ ∃ b4, PowerOn poweredOnInstance poweredOnBackend
            = Outcome.returned (poweredOnInstance, b4)
          ∧ b4.bootOrder = poweredOnBackend.bootOrder
          ∧ b4.ops = poweredOnBackend.ops ++ [BackendOp.start] := by
  have hthm := C15_power_off_amended poweredOnInstance poweredOnBackend
    { Name := "vm1", State := MachineState.Running,
      BootOrder := ["net", "disk", "dvd", "none"] }
    [Call.powerOn, Call.setBootDevice "dvd", Call.powerOff] (by decide)
  obtain ⟨⟨i1, b1, hoff, hneed, hrest⟩, hon⟩ := hthm
  have hconc : PowerOff poweredOnInstance poweredOnBackend
      = Outcome.returned
          ({ Name := "vm1", lastBootOrder := ["", "", "", ""],
             nextBootOrder := ["", "", "", ""], needToRestoreBootOrder := false,
             changeBootOrder := false },
           { machine := some { Name := "vm1", State := MachineState.Poweroff,
                               BootOrder := ["disk", "dvd", "net", "none"] }
             ops := [BackendOp.modify ["net", "disk", "dvd", "none"], BackendOp.start,
               BackendOp.stop, BackendOp.modify ["disk", "dvd", "net", "none"]] }) := by
    decide
  rw [hconc] at hoff
  cases hoff
  exact ⟨by decide, ⟨_, _, hconc, hneed, by decide, by decide, hrest (by decide)⟩, rfl,
    hon rfl⟩

end Model
